import Mathlib

/-!
Shallow embedding of the computational core of `src/app.py` (the indicator
and scoring pipeline of the SPY/QQQ options-timing dashboard).

Scalar cells are modelled by `PVal`, an IEEE-754-like value domain over exact
rationals: `nan` (pandas NaN), `inf`/`ninf` (±infinity, produced by nonzero/0
division), and `num q` for a finite value.  Pandas/NumPy semantics mirrored:
comparisons involving NaN are `false`, arithmetic involving NaN is NaN,
nonzero/0 is a signed infinity and 0/0 is NaN.

A DataFrame is a date index plus an ordered string-keyed column store
(`Df`); column assignment (`setCol`) replaces an existing column in place or
appends a new one, exactly like `df['X'] = series`.
-/

namespace SpyQqq

/-!  ### Kernel-computable rational arithmetic

The `Rat` operations of the ambient library (`Rat.add`, `Rat.mul`, `Rat.inv`,
`Rat.ofScientific`) are `@[irreducible]`, which blocks definitional evaluation
of concrete pipeline runs.  The embedding therefore routes finite-cell
arithmetic through the equivalent `mkRat`/`Rat.divInt` forms below; the
`_eq` bridge lemmas restate each as the ordinary field operation on `ℚ`,
and every symbolic proof immediately rewrites with them. -/

/-- `a + b` on `ℚ`, in kernel-computable form. -/
def qadd (a b : ℚ) : ℚ := mkRat (a.num * b.den + b.num * a.den) (a.den * b.den)

/-- `a - b` on `ℚ`, in kernel-computable form. -/
def qsub (a b : ℚ) : ℚ := qadd a (-b)

/-- `a * b` on `ℚ`, in kernel-computable form. -/
def qmul (a b : ℚ) : ℚ := mkRat (a.num * b.num) (a.den * b.den)

/-- `a / b` on `ℚ` (0 when `b = 0`), in kernel-computable form. -/
def qdiv (a b : ℚ) : ℚ := Rat.divInt (a.num * b.den) (a.den * b.num)

/-- `|a|` on `ℚ`, in kernel-computable form. -/
def qabs (a : ℚ) : ℚ := if a.num < 0 then -a else a

@[simp] theorem qadd_eq (a b : ℚ) : qadd a b = a + b := by
  rw [Rat.add_def]
  simp [qadd, Rat.normalize_eq_mkRat, Int.mul_comm]

@[simp] theorem qsub_eq (a b : ℚ) : qsub a b = a - b := by
  rw [qsub, qadd_eq, sub_eq_add_neg]

@[simp] theorem qmul_eq (a b : ℚ) : qmul a b = a * b := by
  rw [Rat.mul_def]
  simp [qmul, Rat.normalize_eq_mkRat]

@[simp] theorem qdiv_eq (a b : ℚ) : qdiv a b = a / b := by
  rw [Rat.div_def']
  rfl

@[simp] theorem qabs_eq (a : ℚ) : qabs a = |a| := by
  rw [qabs]
  by_cases h : a.num < 0
  · have ha : a < 0 :=
      lt_of_not_ge (fun hge => absurd (Rat.num_nonneg.mpr hge) (not_le.mpr h))
    rw [if_pos h, abs_of_neg ha]
  · rw [if_neg h, abs_of_nonneg (Rat.num_nonneg.mp (not_lt.mp h))]

/-- Cell value: pandas NaN, plus-infinity, minus-infinity, or a finite rational. -/
inductive PVal where
  | nan : PVal
  | inf : PVal
  | ninf : PVal
  | num : ℚ → PVal
deriving DecidableEq, Repr

/-- IEEE negation. -/
def PVal.neg : PVal → PVal
  | nan => nan
  | inf => ninf
  | ninf => inf
  | num q => num (-q)

/-- IEEE addition on special values: NaN propagates, inf + (-inf) is NaN.
Finite sums are exact rationals: the per-operation binary64 rounding of the
real program is idealized away at this level; where that rounding is
observable, the claim is settled against the explicit binary64 rounding model
`fround` / `f64score` below. -/
def PVal.add : PVal → PVal → PVal
  | nan, _ => nan
  | _, nan => nan
  | inf, ninf => nan
  | inf, _ => inf
  | ninf, inf => nan
  | ninf, _ => ninf
  | num _, inf => inf
  | num _, ninf => ninf
  | num a, num b => num (qadd a b)

/-- IEEE subtraction. -/
def PVal.sub (a b : PVal) : PVal := PVal.add a (PVal.neg b)

/-- IEEE multiplication on special values: NaN propagates, 0 * ±inf is NaN.
Finite products are exact rationals; see the note on `PVal.add` about
per-operation binary64 rounding and the `fround` / `f64score` model. -/
def PVal.mul : PVal → PVal → PVal
  | nan, _ => nan
  | _, nan => nan
  | inf, inf => inf
  | inf, ninf => ninf
  | ninf, inf => ninf
  | ninf, ninf => inf
  | inf, num b => if 0 < b then inf else if b < 0 then ninf else nan
  | ninf, num b => if 0 < b then ninf else if b < 0 then inf else nan
  | num a, inf => if 0 < a then inf else if a < 0 then ninf else nan
  | num a, ninf => if 0 < a then ninf else if a < 0 then inf else nan
  | num a, num b => num (qmul a b)

/-- IEEE division: NaN propagates, finite/±inf is 0, ±inf/±inf is NaN,
nonzero/0 is a signed infinity, 0/0 is NaN (negative zero is not tracked). -/
def PVal.div : PVal → PVal → PVal
  | nan, _ => nan
  | _, nan => nan
  | inf, inf => nan
  | inf, ninf => nan
  | ninf, inf => nan
  | ninf, ninf => nan
  | inf, num b => if b < 0 then ninf else inf
  | ninf, num b => if b < 0 then inf else ninf
  | num _, inf => num 0
  | num _, ninf => num 0
  | num a, num b =>
    if b = 0 then (if 0 < a then inf else if a < 0 then ninf else nan) else num (qdiv a b)

/-- IEEE absolute value. -/
def PVal.absP : PVal → PVal
  | nan => nan
  | inf => inf
  | ninf => inf
  | num a => num (qabs a)

/-- IEEE strict comparison: any comparison with NaN is false. -/
def PVal.ltb : PVal → PVal → Bool
  | nan, _ => false
  | _, nan => false
  | inf, _ => false
  | ninf, ninf => false
  | ninf, _ => true
  | num _, inf => true
  | num _, ninf => false
  | num a, num b => decide (a < b)

/-- IEEE non-strict comparison: any comparison with NaN is false. -/
def PVal.leb : PVal → PVal → Bool
  | nan, _ => false
  | _, nan => false
  | ninf, _ => true
  | inf, inf => true
  | inf, _ => false
  | num _, inf => true
  | num _, ninf => false
  | num a, num b => decide (a ≤ b)

/-- IEEE equality test: NaN is not equal to anything, itself included. -/
def PVal.eqb : PVal → PVal → Bool
  | nan, _ => false
  | _, nan => false
  | inf, inf => true
  | inf, _ => false
  | ninf, ninf => true
  | ninf, _ => false
  | num a, num b => decide (a = b)
  | _, _ => false

/-- `a > b` as NumPy evaluates it. -/
def PVal.gtb (a b : PVal) : Bool := PVal.ltb b a

/-- `a >= b` as NumPy evaluates it. -/
def PVal.geb (a b : PVal) : Bool := PVal.leb b a

/-- Binary maximum on non-NaN values (used inside rolling/row aggregation). -/
def PVal.maxP (a b : PVal) : PVal := if PVal.leb a b then b else a

/-- Binary minimum on non-NaN values. -/
def PVal.minP (a b : PVal) : PVal := if PVal.leb b a then b else a

/-- Row-wise max with `skipna=True`: a NaN operand is ignored
(`DataFrame.max(axis=1)` semantics). -/
def maxSkipNa (a b : PVal) : PVal :=
  match a, b with
  | PVal.nan, y => y
  | x, PVal.nan => x
  | x, y => PVal.maxP x y

/-- A pandas Series: one cell per bar, in date order. -/
abbrev Series := List PVal

/-- Left-fold sum of a series with IEEE addition (NaN in, NaN out). -/
def sumP (xs : Series) : PVal := xs.foldl PVal.add (PVal.num 0)

/-- Element-wise `+` of two aligned series. -/
def sAdd (xs ys : Series) : Series := List.zipWith PVal.add xs ys

/-- Element-wise `-` of two aligned series. -/
def sSub (xs ys : Series) : Series := List.zipWith PVal.sub xs ys

/-- Element-wise `*` of two aligned series. -/
def sMul (xs ys : Series) : Series := List.zipWith PVal.mul xs ys

/-- Element-wise `/` of two aligned series. -/
def sDiv (xs ys : Series) : Series := List.zipWith PVal.div xs ys

/-- `series * c` (scalar on the right, as written in the source). -/
def sMulC (xs : Series) (c : ℚ) : Series := xs.map (fun v => PVal.mul v (PVal.num c))

/-- `c * series` (scalar on the left, as written in the source). -/
def cMulS (c : ℚ) (xs : Series) : Series := xs.map (fun v => PVal.mul (PVal.num c) v)

/-- Element-wise absolute value, `series.abs()`. -/
def sAbs (xs : Series) : Series := xs.map PVal.absP

/-- The trailing window of width `w` ending at position `i`. -/
def window (w i : ℕ) (xs : Series) : Series := (xs.drop (i + 1 - w)).take w

/-- `series.rolling(window=w).mean()` with the default `min_periods = w`:
positions with fewer than `w` prior bars are NaN, and a NaN anywhere in the
window makes the result NaN (via IEEE summation). -/
def rollingMean (w : ℕ) (xs : Series) : Series :=
  (List.range xs.length).map (fun i =>
    if i + 1 < w then PVal.nan else PVal.div (sumP (window w i xs)) (PVal.num (w : ℚ)))

/-- `series.rolling(window=w).max()` with the default `min_periods = w`. -/
def rollingMax (w : ℕ) (xs : Series) : Series :=
  (List.range xs.length).map (fun i =>
    if i + 1 < w then PVal.nan
    else if (window w i xs).any (fun v => v == PVal.nan) then PVal.nan
    else match window w i xs with
      | [] => PVal.nan
      | y :: ys => ys.foldl PVal.maxP y)

/-- `series.rolling(window=w).min()` with the default `min_periods = w`. -/
def rollingMin (w : ℕ) (xs : Series) : Series :=
  (List.range xs.length).map (fun i =>
    if i + 1 < w then PVal.nan
    else if (window w i xs).any (fun v => v == PVal.nan) then PVal.nan
    else match window w i xs with
      | [] => PVal.nan
      | y :: ys => ys.foldl PVal.minP y)

/-- `series.diff()`: first entry NaN, then successive differences. -/
def diffS (xs : Series) : Series :=
  match xs with
  | [] => []
  | _ :: rest => PVal.nan :: List.zipWith PVal.sub rest xs

/-- `series.shift()`: first entry NaN, every other entry moved down one bar. -/
def shiftS (xs : Series) : Series :=
  match xs with
  | [] => []
  | _ :: _ => PVal.nan :: xs.dropLast

/-- `series.cumsum()`: entry `i` is the IEEE sum of entries `0..i`. -/
def cumsum (xs : Series) : Series :=
  (List.range xs.length).map (fun i => sumP (xs.take (i + 1)))

/-- `series.ewm(span, adjust=False).mean()` recurrence after the seed. -/
def ewmAux (a : ℚ) (prev : PVal) : Series → Series
  | [] => []
  | x :: rest =>
    let y := PVal.add (PVal.mul (PVal.num (qsub 1 a)) prev) (PVal.mul (PVal.num a) x)
    y :: ewmAux a y rest

/-- `series.ewm(span=s, adjust=False).mean()`: seeded with the first value,
then `y_i = (1-a) * y_(i-1) + a * x_i` with smoothing factor `a = 2/(s+1)`. -/
def ewmSpan (span : ℚ) (xs : Series) : Series :=
  match xs with
  | [] => []
  | x :: rest => x :: ewmAux (qdiv 2 (qadd span 1)) x rest

/-- Is the cell a non-missing observation? -/
def notNan (v : PVal) : Bool := !(v == PVal.nan)

/-- `series.rank(pct=True)` with pandas defaults (`method='average'`,
`ascending=True`, `na_option='keep'`): a NaN cell ranks NaN; a non-NaN cell
gets the mean of the ordinal ranks of its tie group — `L + (E+1)/2` where `L`
counts strictly smaller cells and `E` counts cells tied with it — divided by
the number of non-NaN cells. -/
def rankPct (xs : Series) : Series :=
  xs.map (fun v =>
    if v == PVal.nan then PVal.nan
    else
      PVal.num (qdiv (qadd ((xs.filter (fun w => PVal.ltb w v)).length : ℚ)
        (qdiv (((xs.filter (fun w => PVal.eqb w v)).length + 1 : ℕ) : ℚ) 2))
        ((xs.filter notNan).length : ℚ)))

/-- `np.where(cond, 1, 0)` for one cell. -/
def boolToP (b : Bool) : PVal := if b then PVal.num 1 else PVal.num 0

/-- Row-wise ternary zip (used for the three-column true-range max and the
two-conjunct EMA signal). -/
def zipWith3 (f : PVal → PVal → PVal → PVal) (xs ys zs : Series) : Series :=
  List.zipWith (fun x yz => f x yz.1 yz.2) xs (List.zipWith Prod.mk ys zs)

/-- A DataFrame: the date index plus an ordered, string-keyed column store. -/
structure Df where
  index : List ℤ
  cols : List (String × Series)
deriving DecidableEq, Repr

/-- `df[name] = xs` on the column store: replace in place if the column
exists, append at the end otherwise. -/
def setColA : List (String × Series) → String → Series → List (String × Series)
  | [], name, xs => [(name, xs)]
  | (n, v) :: rest, name, xs =>
    if n = name then (name, xs) :: rest else (n, v) :: setColA rest name xs

/-- `df[name] = xs`. -/
def setCol (df : Df) (name : String) (xs : Series) : Df :=
  { df with cols := setColA df.cols name xs }

/-- `df[name]` on the column store (empty series if absent). -/
def getColA : List (String × Series) → String → Series
  | [], _ => []
  | (n, v) :: rest, name => if n = name then v else getColA rest name

/-- `df[name]`. -/
def getCol (df : Df) (name : String) : Series := getColA df.cols name

/-- A raw OHLCV DataFrame as the data source returns it: five aligned
rational-valued columns over a date index (the spec's Time Series). -/
def mkDf (dates : List ℤ) (o h l c v : List ℚ) : Df :=
  { index := dates,
    cols := [("Open", o.map PVal.num), ("High", h.map PVal.num),
             ("Low", l.map PVal.num), ("Close", c.map PVal.num),
             ("Volume", v.map PVal.num)] }

/-- `delta.where(delta > 0, 0)` for `delta = close.diff()`. -/
def gainRaw (close : Series) : Series :=
  (diffS close).map (fun d => if PVal.gtb d (PVal.num 0) then d else PVal.num 0)

/-- `-delta.where(delta < 0, 0)` for `delta = close.diff()`. -/
def lossRaw (close : Series) : Series :=
  (diffS close).map (fun d => PVal.neg (if PVal.ltb d (PVal.num 0) then d else PVal.num 0))

/-- `gain` of the RSI block: 7-bar rolling mean of the positive deltas. -/
def rsiGain (close : Series) : Series := rollingMean 7 (gainRaw close)

/-- `loss` of the RSI block: 7-bar rolling mean of the negative deltas' magnitude. -/
def rsiLoss (close : Series) : Series := rollingMean 7 (lossRaw close)

/-- `rs = gain / loss; RSI = 100 - (100 / (1 + rs))`. -/
def rsiSeries (close : Series) : Series :=
  (List.zipWith PVal.div (rsiGain close) (rsiLoss close)).map
    (fun rs => PVal.sub (PVal.num 100) (PVal.div (PVal.num 100) (PVal.add (PVal.num 1) rs)))

/-- `100 * (Close - low_14) / (high_14 - low_14)` with the 14-bar rolling
extrema of Low and High. -/
def stochK (close low high : Series) : Series :=
  sDiv (cMulS 100 (sSub close (rollingMin 14 low)))
    (sSub (rollingMax 14 high) (rollingMin 14 low))

/-- The row-wise `max` of `High - Low`, `|High - Close.shift()|`,
`|Low - Close.shift()|` (`skipna=True`, so the first bar keeps `High - Low`). -/
def trueRange (high low close : Series) : Series :=
  zipWith3 (fun x y z => maxSkipNa (maxSkipNa x y) z)
    (sSub high low) (sAbs (sSub high (shiftS close))) (sAbs (sSub low (shiftS close)))

/-- Line-by-line embedding of `calculate_indicators` (src/app.py lines 16-33). -/
def calculate_indicators (df : Df) : Df :=
  let df := setCol df "EMA9" (ewmSpan 9 (getCol df "Close"))
  let df := setCol df "EMA21" (ewmSpan 21 (getCol df "Close"))
  let df := setCol df "SMA50" (rollingMean 50 (getCol df "Close"))
  let df := setCol df "RSI" (rsiSeries (getCol df "Close"))
  let df := setCol df "Stoch_K" (stochK (getCol df "Close") (getCol df "Low") (getCol df "High"))
  let df := setCol df "Stoch_D" (rollingMean 3 (getCol df "Stoch_K"))
  let df := setCol df "VWAP"
    (sDiv (cumsum (sMul (getCol df "Close") (getCol df "Volume"))) (cumsum (getCol df "Volume")))
  let df := setCol df "ATR"
    (rollingMean 14 (trueRange (getCol df "High") (getCol df "Low") (getCol df "Close")))
  let df := setCol df "ATR_Percentile" (sMulC (rankPct (getCol df "ATR")) 100)
  let df := setCol df "Vol_Ratio"
    (List.zipWith PVal.div (getCol df "Volume") (rollingMean 20 (getCol df "Volume")))
  df

/-- Line-by-line embedding of `calculate_timing_score` (src/app.py lines 35-46). -/
def calculate_timing_score (df : Df) : Df :=
  let df := setCol df "EMA_Signal"
    (zipWith3 (fun a b c => boolToP (PVal.gtb a b && PVal.gtb b c))
      (getCol df "EMA9") (getCol df "EMA21") (getCol df "SMA50"))
  let df := setCol df "RSI_Signal"
    ((getCol df "RSI").map (fun r =>
      boolToP (PVal.geb r (PVal.num 35) && PVal.leb r (PVal.num 50))))
  let df := setCol df "Stoch_Signal"
    (List.zipWith (fun k d => boolToP (PVal.gtb k d && PVal.ltb k (PVal.num 20)))
      (getCol df "Stoch_K") (getCol df "Stoch_D"))
  let df := setCol df "VWAP_Signal"
    (List.zipWith (fun c w => boolToP (PVal.gtb c w)) (getCol df "Close") (getCol df "VWAP"))
  let df := setCol df "IVP_Signal"
    ((getCol df "ATR_Percentile").map (fun a =>
      boolToP (PVal.geb a (PVal.num 20) && PVal.leb a (PVal.num 40))))
  let df := setCol df "PC_Signal"
    ((getCol df "Vol_Ratio").map (fun v => boolToP (PVal.gtb v (PVal.num (mkRat 12 10)))))
  let df := setCol df "Timing_Score"
    (sMulC (sAdd (sAdd (sAdd (sAdd (sAdd
      (sMulC (getCol df "EMA_Signal") (mkRat 3 10)) (sMulC (getCol df "RSI_Signal") (mkRat 2 10)))
      (sMulC (getCol df "Stoch_Signal") (mkRat 2 10))) (sMulC (getCol df "VWAP_Signal") (mkRat 1 10)))
      (sMulC (getCol df "IVP_Signal") (mkRat 1 10))) (sMulC (getCol df "PC_Signal") (mkRat 1 10))) 100)
  let df := setCol df "Percentile" (sMulC (rankPct (getCol df "Timing_Score")) 100)
  df

/-- The full per-symbol pipeline as run by the script body. -/
def pipeline (df : Df) : Df := calculate_timing_score (calculate_indicators df)

/-- `"Buy Call" if percentile >= 80 else "Hold" if percentile >= 50 else
"Avoid"` (src/app.py line 64). -/
def tradeSignal (percentile : PVal) : String :=
  if PVal.geb percentile (PVal.num 80) then "Buy Call"
  else if PVal.geb percentile (PVal.num 50) then "Hold"
  else "Avoid"

/-- The classification the dashboard displays: `tradeSignal` applied to the
most recent bar's Percentile (`df.iloc[-1]`). -/
def latestTradeSignal (df : Df) : String :=
  tradeSignal ((getCol df "Percentile").getLastD PVal.nan)

/-!  ### Basic lemmas about the column store  -/

theorem getColA_setColA (cols : List (String × Series)) (n m : String) (xs : Series) :
    getColA (setColA cols n xs) m = if n = m then xs else getColA cols m := by
  induction cols with
  | nil => by_cases h : n = m <;> simp [setColA, getColA, h]
  | cons hd tl ih =>
      obtain ⟨hn, hv⟩ := hd
      by_cases h1 : hn = n
      · subst h1
        by_cases h2 : hn = m <;> simp [setColA, getColA, h2]
      · by_cases h2 : hn = m
        · subst h2
          have h3 : ¬(n = hn) := fun h => h1 h.symm
          simp [setColA, getColA, h1, h3]
        · simp [setColA, getColA, h1, h2, ih]

theorem getCol_setCol (df : Df) (n m : String) (xs : Series) :
    getCol (setCol df n xs) m = if n = m then xs else getCol df m :=
  getColA_setColA df.cols n m xs

theorem index_setCol (df : Df) (n : String) (xs : Series) : (setCol df n xs).index = df.index :=
  rfl

@[simp] theorem getCol_mkDf_Open (dates : List ℤ) (o h l c v : List ℚ) :
    getCol (mkDf dates o h l c v) "Open" = o.map PVal.num := rfl

@[simp] theorem getCol_mkDf_High (dates : List ℤ) (o h l c v : List ℚ) :
    getCol (mkDf dates o h l c v) "High" = h.map PVal.num := rfl

@[simp] theorem getCol_mkDf_Low (dates : List ℤ) (o h l c v : List ℚ) :
    getCol (mkDf dates o h l c v) "Low" = l.map PVal.num := rfl

@[simp] theorem getCol_mkDf_Close (dates : List ℤ) (o h l c v : List ℚ) :
    getCol (mkDf dates o h l c v) "Close" = c.map PVal.num := rfl

@[simp] theorem getCol_mkDf_Volume (dates : List ℤ) (o h l c v : List ℚ) :
    getCol (mkDf dates o h l c v) "Volume" = v.map PVal.num := rfl

/-!  ### Length lemmas for the series operations  -/

@[simp] theorem length_sAdd (xs ys : Series) :
    (sAdd xs ys).length = min xs.length ys.length := by simp [sAdd]

@[simp] theorem length_sSub (xs ys : Series) :
    (sSub xs ys).length = min xs.length ys.length := by simp [sSub]

@[simp] theorem length_sMul (xs ys : Series) :
    (sMul xs ys).length = min xs.length ys.length := by simp [sMul]

@[simp] theorem length_sDiv (xs ys : Series) :
    (sDiv xs ys).length = min xs.length ys.length := by simp [sDiv]

@[simp] theorem length_sMulC (xs : Series) (c : ℚ) : (sMulC xs c).length = xs.length := by
  simp [sMulC]

@[simp] theorem length_cMulS (c : ℚ) (xs : Series) : (cMulS c xs).length = xs.length := by
  simp [cMulS]

@[simp] theorem length_sAbs (xs : Series) : (sAbs xs).length = xs.length := by simp [sAbs]

@[simp] theorem length_rollingMean (w : ℕ) (xs : Series) :
    (rollingMean w xs).length = xs.length := by simp [rollingMean]

@[simp] theorem length_rollingMax (w : ℕ) (xs : Series) :
    (rollingMax w xs).length = xs.length := by simp [rollingMax]

@[simp] theorem length_rollingMin (w : ℕ) (xs : Series) :
    (rollingMin w xs).length = xs.length := by simp [rollingMin]

@[simp] theorem length_cumsum (xs : Series) : (cumsum xs).length = xs.length := by simp [cumsum]

@[simp] theorem length_diffS (xs : Series) : (diffS xs).length = xs.length := by
  cases xs with
  | nil => rfl
  | cons x rest => simp [diffS]

@[simp] theorem length_shiftS (xs : Series) : (shiftS xs).length = xs.length := by
  cases xs with
  | nil => rfl
  | cons x rest => simp [shiftS]

theorem length_ewmAux (a : ℚ) : ∀ (xs : Series) (prev : PVal),
    (ewmAux a prev xs).length = xs.length := by
  intro xs
  induction xs with
  | nil => intro prev; rfl
  | cons x rest ih => intro prev; simp [ewmAux, ih]

@[simp] theorem length_ewmSpan (span : ℚ) (xs : Series) :
    (ewmSpan span xs).length = xs.length := by
  cases xs with
  | nil => rfl
  | cons x rest => simp [ewmSpan, length_ewmAux]

@[simp] theorem length_rankPct (xs : Series) : (rankPct xs).length = xs.length := by
  simp [rankPct]

@[simp] theorem length_zipWith3 (f : PVal → PVal → PVal → PVal) (xs ys zs : Series) :
    (zipWith3 f xs ys zs).length = min xs.length (min ys.length zs.length) := by
  simp [zipWith3]

@[simp] theorem length_gainRaw (close : Series) : (gainRaw close).length = close.length := by
  simp [gainRaw]

@[simp] theorem length_lossRaw (close : Series) : (lossRaw close).length = close.length := by
  simp [lossRaw]

@[simp] theorem length_rsiGain (close : Series) : (rsiGain close).length = close.length := by
  simp [rsiGain]

@[simp] theorem length_rsiLoss (close : Series) : (rsiLoss close).length = close.length := by
  simp [rsiLoss]

@[simp] theorem length_rsiSeries (close : Series) : (rsiSeries close).length = close.length := by
  simp [rsiSeries]

@[simp] theorem length_trueRange (high low close : Series) :
    (trueRange high low close).length
      = min (min high.length low.length)
          (min (min high.length close.length) (min low.length close.length)) := by
  simp [trueRange]

/-!  ### Pointwise (`getD`) lemmas for the series operations  -/

theorem lt_length_of_getD_ne {α : Type} (xs : List α) (i : ℕ) (d : α)
    (h : xs.getD i d ≠ d) : i < xs.length := by
  by_contra hge
  exact h (List.getD_eq_default xs d (Nat.le_of_not_lt hge))

theorem getD_map {α β : Type} (f : α → β) (xs : List α) (i : ℕ) (hi : i < xs.length)
    (d : β) (d' : α) : (xs.map f).getD i d = f (xs.getD i d') := by
  rw [List.getD_eq_getElem _ _ (by simpa using hi), List.getElem_map,
    List.getD_eq_getElem _ _ hi]

theorem getD_zipWith {α β γ : Type} (f : α → β → γ) (xs : List α) (ys : List β) (i : ℕ)
    (hx : i < xs.length) (hy : i < ys.length) (d : γ) (d1 : α) (d2 : β) :
    (List.zipWith f xs ys).getD i d = f (xs.getD i d1) (ys.getD i d2) := by
  rw [List.getD_eq_getElem _ _ (by simp; omega), List.getElem_zipWith,
    List.getD_eq_getElem _ _ hx, List.getD_eq_getElem _ _ hy]

theorem getD_zipWith3 (f : PVal → PVal → PVal → PVal) (xs ys zs : Series) (i : ℕ)
    (hx : i < xs.length) (hy : i < ys.length) (hz : i < zs.length) (d : PVal) :
    (zipWith3 f xs ys zs).getD i d
      = f (xs.getD i d) (ys.getD i d) (zs.getD i d) := by
  rw [zipWith3, getD_zipWith _ _ _ i hx (by simp; omega) d d (d, d),
    getD_zipWith _ _ _ i hy hz (d, d) d d]

theorem getD_rollingMean (w : ℕ) (xs : Series) (i : ℕ) (hi : i < xs.length) (d : PVal) :
    (rollingMean w xs).getD i d
      = if i + 1 < w then PVal.nan
        else PVal.div (sumP (window w i xs)) (PVal.num (w : ℚ)) := by
  rw [rollingMean, List.getD_eq_getElem _ _ (by simpa using hi), List.getElem_map,
    List.getElem_range]

theorem getD_rollingMax (w : ℕ) (xs : Series) (i : ℕ) (hi : i < xs.length) (d : PVal) :
    (rollingMax w xs).getD i d
      = if i + 1 < w then PVal.nan
        else if (window w i xs).any (fun v => v == PVal.nan) then PVal.nan
        else match window w i xs with
          | [] => PVal.nan
          | y :: ys => ys.foldl PVal.maxP y := by
  rw [rollingMax, List.getD_eq_getElem _ _ (by simpa using hi), List.getElem_map,
    List.getElem_range]

theorem getD_rollingMin (w : ℕ) (xs : Series) (i : ℕ) (hi : i < xs.length) (d : PVal) :
    (rollingMin w xs).getD i d
      = if i + 1 < w then PVal.nan
        else if (window w i xs).any (fun v => v == PVal.nan) then PVal.nan
        else match window w i xs with
          | [] => PVal.nan
          | y :: ys => ys.foldl PVal.minP y := by
  rw [rollingMin, List.getD_eq_getElem _ _ (by simpa using hi), List.getElem_map,
    List.getElem_range]

theorem getD_cumsum (xs : Series) (i : ℕ) (hi : i < xs.length) (d : PVal) :
    (cumsum xs).getD i d = sumP (xs.take (i + 1)) := by
  rw [cumsum, List.getD_eq_getElem _ _ (by simpa using hi), List.getElem_map,
    List.getElem_range]

theorem getD_diffS_zero (x : PVal) (rest : Series) (d : PVal) :
    (diffS (x :: rest)).getD 0 d = PVal.nan := rfl

theorem getD_diffS_succ (xs : Series) (i : ℕ) (hi : i + 1 < xs.length) (d : PVal) :
    (diffS xs).getD (i + 1) d = PVal.sub (xs.getD (i + 1) d) (xs.getD i d) := by
  cases xs with
  | nil => simp at hi
  | cons x rest =>
      show (List.zipWith PVal.sub rest (x :: rest)).getD i d = _
      rw [getD_zipWith _ _ _ i (by simp at hi ⊢; omega) (by simp at hi ⊢; omega) d d d]
      simp [List.getD_cons_succ]

/-!  ### Numeric-cell computation lemmas  -/

theorem add_num_num (a b : ℚ) : PVal.add (PVal.num a) (PVal.num b) = PVal.num (a + b) := by
  show PVal.num (qadd a b) = PVal.num (a + b)
  rw [qadd_eq]

theorem sub_num_num (a b : ℚ) : PVal.sub (PVal.num a) (PVal.num b) = PVal.num (a - b) := by
  show PVal.num (qadd a (-b)) = PVal.num (a - b)
  rw [qadd_eq, ← sub_eq_add_neg]

theorem mul_num_num (a b : ℚ) : PVal.mul (PVal.num a) (PVal.num b) = PVal.num (a * b) := by
  show PVal.num (qmul a b) = PVal.num (a * b)
  rw [qmul_eq]

theorem div_num_num (a b : ℚ) (hb : b ≠ 0) :
    PVal.div (PVal.num a) (PVal.num b) = PVal.num (a / b) := by
  simp [PVal.div, hb]

theorem sumP_num_aux : ∀ (qs : List ℚ) (a : ℚ),
    (qs.map PVal.num).foldl PVal.add (PVal.num a) = PVal.num (a + qs.sum) := by
  intro qs
  induction qs with
  | nil => intro a; simp
  | cons q rest ih =>
      intro a
      show (rest.map PVal.num).foldl PVal.add (PVal.add (PVal.num a) (PVal.num q)) = _
      rw [add_num_num, ih (a + q)]
      congr 1
      simp
      ring

theorem sumP_map_num (qs : List ℚ) : sumP (qs.map PVal.num) = PVal.num qs.sum := by
  rw [sumP, sumP_num_aux qs 0, zero_add]

theorem foldl_add_from_nan : ∀ (xs : Series), xs.foldl PVal.add PVal.nan = PVal.nan := by
  intro xs
  induction xs with
  | nil => rfl
  | cons x rest ih =>
      show rest.foldl PVal.add (PVal.add PVal.nan x) = PVal.nan
      rw [show PVal.add PVal.nan x = PVal.nan by cases x <;> rfl]
      exact ih

theorem foldl_add_nan_of_mem : ∀ (xs : Series) (acc : PVal), PVal.nan ∈ xs →
    xs.foldl PVal.add acc = PVal.nan := by
  intro xs
  induction xs with
  | nil => intro acc h; simp at h
  | cons x rest ih =>
      intro acc h
      rcases List.mem_cons.mp h with hx | hx
      · subst hx
        show rest.foldl PVal.add (PVal.add acc PVal.nan) = PVal.nan
        rw [show PVal.add acc PVal.nan = PVal.nan by cases acc <;> rfl]
        exact foldl_add_from_nan rest
      · exact ih _ hx

theorem sumP_nan_of_mem (xs : Series) (hmem : PVal.nan ∈ xs) : sumP xs = PVal.nan :=
  foldl_add_nan_of_mem xs _ hmem

theorem boolToP_or (b : Bool) : boolToP b = PVal.num 0 ∨ boolToP b = PVal.num 1 := by
  cases b <;> simp [boolToP]

theorem add_nan_right (a : PVal) : PVal.add a PVal.nan = PVal.nan := by cases a <;> rfl

theorem exists_of_mem_zipWith {α β γ : Type} (f : α → β → γ) :
    ∀ (xs : List α) (ys : List β) (z : γ), z ∈ List.zipWith f xs ys →
      ∃ a b, a ∈ xs ∧ b ∈ ys ∧ z = f a b := by
  intro xs
  induction xs with
  | nil => intro ys z h; simp at h
  | cons x xt ih =>
      intro ys z h
      cases ys with
      | nil => simp at h
      | cons y yt =>
          rcases List.mem_cons.mp h with h1 | h1
          · exact ⟨x, y, List.mem_cons_self x xt, List.mem_cons_self y yt, h1⟩
          · obtain ⟨a, b, ha, hb, rfl⟩ := ih yt z h1
            exact ⟨a, b, List.mem_cons_of_mem _ ha, List.mem_cons_of_mem _ hb, rfl⟩

theorem getD_sMulC (xs : Series) (c : ℚ) (i : ℕ) (d : PVal) (h : i < xs.length) :
    (sMulC xs c).getD i d = PVal.mul (xs.getD i d) (PVal.num c) := by
  rw [sMulC, getD_map _ _ _ h d d]

theorem getD_cMulS (c : ℚ) (xs : Series) (i : ℕ) (d : PVal) (h : i < xs.length) :
    (cMulS c xs).getD i d = PVal.mul (PVal.num c) (xs.getD i d) := by
  rw [cMulS, getD_map _ _ _ h d d]

theorem getD_sAbs (xs : Series) (i : ℕ) (d : PVal) (h : i < xs.length) :
    (sAbs xs).getD i d = PVal.absP (xs.getD i d) := by
  rw [sAbs, getD_map _ _ _ h d d]

theorem getD_sAdd (xs ys : Series) (i : ℕ) (d : PVal)
    (hx : i < xs.length) (hy : i < ys.length) :
    (sAdd xs ys).getD i d = PVal.add (xs.getD i d) (ys.getD i d) := by
  rw [sAdd, getD_zipWith _ _ _ i hx hy d d d]

theorem getD_sSub (xs ys : Series) (i : ℕ) (d : PVal)
    (hx : i < xs.length) (hy : i < ys.length) :
    (sSub xs ys).getD i d = PVal.sub (xs.getD i d) (ys.getD i d) := by
  rw [sSub, getD_zipWith _ _ _ i hx hy d d d]

theorem getD_sMul (xs ys : Series) (i : ℕ) (d : PVal)
    (hx : i < xs.length) (hy : i < ys.length) :
    (sMul xs ys).getD i d = PVal.mul (xs.getD i d) (ys.getD i d) := by
  rw [sMul, getD_zipWith _ _ _ i hx hy d d d]

theorem getD_sDiv (xs ys : Series) (i : ℕ) (d : PVal)
    (hx : i < xs.length) (hy : i < ys.length) :
    (sDiv xs ys).getD i d = PVal.div (xs.getD i d) (ys.getD i d) := by
  rw [sDiv, getD_zipWith _ _ _ i hx hy d d d]

theorem boolToP_eq (b : Bool) : boolToP b = PVal.num (if b then 1 else 0) := by
  cases b <;> rfl

theorem boolToP_val_bounds (b : Bool) :
    0 ≤ (if b then (1 : ℚ) else 0) ∧ (if b then (1 : ℚ) else 0) ≤ 1 := by
  cases b <;> norm_num

theorem exists_of_mem_sAdd {xs ys : Series} {z : PVal} (h : z ∈ sAdd xs ys) :
    ∃ a b, a ∈ xs ∧ b ∈ ys ∧ z = PVal.add a b :=
  exists_of_mem_zipWith PVal.add xs ys z h

theorem eq_boolToP_of_mem_map {g : PVal → Bool} {xs : Series} {x : PVal}
    (h : x ∈ xs.map (fun a => boolToP (g a))) : ∃ b, x = boolToP b := by
  rw [List.mem_map] at h
  obtain ⟨a, _, rfl⟩ := h
  exact ⟨g a, rfl⟩

theorem eq_boolToP_of_mem_zipWith {g : PVal → PVal → Bool} {xs ys : Series} {x : PVal}
    (h : x ∈ List.zipWith (fun a b => boolToP (g a b)) xs ys) : ∃ b, x = boolToP b := by
  obtain ⟨a, c, _, _, rfl⟩ := exists_of_mem_zipWith _ _ _ _ h
  exact ⟨g a c, rfl⟩

theorem eq_boolToP_of_mem_zipWith3 {g : PVal → PVal → PVal → Bool} {xs ys zs : Series}
    {x : PVal} (h : x ∈ zipWith3 (fun a b c => boolToP (g a b c)) xs ys zs) :
    ∃ b, x = boolToP b := by
  rw [zipWith3] at h
  obtain ⟨a, bc, _, _, rfl⟩ := exists_of_mem_zipWith _ _ _ _ h
  exact ⟨g a bc.1 bc.2, rfl⟩

@[simp] theorem mkRat_3_10 : (mkRat 3 10 : ℚ) = 0.3 := by
  norm_num [Rat.mkRat_eq_divInt, Rat.divInt_eq_div]

@[simp] theorem mkRat_2_10 : (mkRat 2 10 : ℚ) = 0.2 := by
  norm_num [Rat.mkRat_eq_divInt, Rat.divInt_eq_div]

@[simp] theorem mkRat_1_10 : (mkRat 1 10 : ℚ) = 0.1 := by
  norm_num [Rat.mkRat_eq_divInt, Rat.divInt_eq_div]

@[simp] theorem mkRat_12_10 : (mkRat 12 10 : ℚ) = 1.2 := by
  norm_num [Rat.mkRat_eq_divInt, Rat.divInt_eq_div]

/-!  ### Column-level reductions of the two pipeline functions  -/

theorem ts_EMA_Signal (df : Df) :
    getCol (calculate_timing_score df) "EMA_Signal"
      = zipWith3 (fun a b c => boolToP (PVal.gtb a b && PVal.gtb b c))
          (getCol df "EMA9") (getCol df "EMA21") (getCol df "SMA50") := by
  simp [calculate_timing_score, getCol_setCol]

theorem ts_RSI_Signal (df : Df) :
    getCol (calculate_timing_score df) "RSI_Signal"
      = (getCol df "RSI").map (fun r =>
          boolToP (PVal.geb r (PVal.num 35) && PVal.leb r (PVal.num 50))) := by
  simp [calculate_timing_score, getCol_setCol]

theorem ts_Stoch_Signal (df : Df) :
    getCol (calculate_timing_score df) "Stoch_Signal"
      = List.zipWith (fun k d => boolToP (PVal.gtb k d && PVal.ltb k (PVal.num 20)))
          (getCol df "Stoch_K") (getCol df "Stoch_D") := by
  simp [calculate_timing_score, getCol_setCol]

theorem ts_VWAP_Signal (df : Df) :
    getCol (calculate_timing_score df) "VWAP_Signal"
      = List.zipWith (fun c w => boolToP (PVal.gtb c w))
          (getCol df "Close") (getCol df "VWAP") := by
  simp [calculate_timing_score, getCol_setCol]

theorem ts_IVP_Signal (df : Df) :
    getCol (calculate_timing_score df) "IVP_Signal"
      = (getCol df "ATR_Percentile").map (fun a =>
          boolToP (PVal.geb a (PVal.num 20) && PVal.leb a (PVal.num 40))) := by
  simp [calculate_timing_score, getCol_setCol]

theorem ts_PC_Signal (df : Df) :
    getCol (calculate_timing_score df) "PC_Signal"
      = (getCol df "Vol_Ratio").map (fun v => boolToP (PVal.gtb v (PVal.num (mkRat 12 10)))) := by
  simp [calculate_timing_score, getCol_setCol]

theorem ts_Timing_Score (df : Df) :
    getCol (calculate_timing_score df) "Timing_Score"
      = sMulC (sAdd (sAdd (sAdd (sAdd (sAdd
          (sMulC (getCol (calculate_timing_score df) "EMA_Signal") (mkRat 3 10))
          (sMulC (getCol (calculate_timing_score df) "RSI_Signal") (mkRat 2 10)))
          (sMulC (getCol (calculate_timing_score df) "Stoch_Signal") (mkRat 2 10)))
          (sMulC (getCol (calculate_timing_score df) "VWAP_Signal") (mkRat 1 10)))
          (sMulC (getCol (calculate_timing_score df) "IVP_Signal") (mkRat 1 10)))
          (sMulC (getCol (calculate_timing_score df) "PC_Signal") (mkRat 1 10))) 100 := by
  rw [ts_EMA_Signal, ts_RSI_Signal, ts_Stoch_Signal, ts_VWAP_Signal, ts_IVP_Signal,
    ts_PC_Signal]
  simp [calculate_timing_score, getCol_setCol]

theorem ts_Percentile (df : Df) :
    getCol (calculate_timing_score df) "Percentile"
      = sMulC (rankPct (getCol (calculate_timing_score df) "Timing_Score")) 100 := by
  rw [ts_Timing_Score]
  simp [calculate_timing_score, getCol_setCol]

theorem ci_RSI (df : Df) :
    getCol (calculate_indicators df) "RSI" = rsiSeries (getCol df "Close") := by
  simp [calculate_indicators, getCol_setCol]

theorem ci_Stoch_K (df : Df) :
    getCol (calculate_indicators df) "Stoch_K"
      = stochK (getCol df "Close") (getCol df "Low") (getCol df "High") := by
  simp [calculate_indicators, getCol_setCol]

theorem ci_Stoch_D (df : Df) :
    getCol (calculate_indicators df) "Stoch_D"
      = rollingMean 3 (stochK (getCol df "Close") (getCol df "Low") (getCol df "High")) := by
  simp [calculate_indicators, getCol_setCol]

theorem ci_VWAP (df : Df) :
    getCol (calculate_indicators df) "VWAP"
      = sDiv (cumsum (sMul (getCol df "Close") (getCol df "Volume")))
          (cumsum (getCol df "Volume")) := by
  simp [calculate_indicators, getCol_setCol]

theorem ci_ATR (df : Df) :
    getCol (calculate_indicators df) "ATR"
      = rollingMean 14 (trueRange (getCol df "High") (getCol df "Low") (getCol df "Close")) := by
  simp [calculate_indicators, getCol_setCol]

theorem ci_ATR_Percentile (df : Df) :
    getCol (calculate_indicators df) "ATR_Percentile"
      = sMulC (rankPct (rollingMean 14
          (trueRange (getCol df "High") (getCol df "Low") (getCol df "Close")))) 100 := by
  simp [calculate_indicators, getCol_setCol]

theorem ci_Vol_Ratio (df : Df) :
    getCol (calculate_indicators df) "Vol_Ratio"
      = List.zipWith PVal.div (getCol df "Volume") (rollingMean 20 (getCol df "Volume")) := by
  simp [calculate_indicators, getCol_setCol]

/-- Pointwise value of the weighted-score series built on line 42-44 of the
source, given numeric signal values at position `i`. -/
theorem getD_score_series (sE sR sS sV sI sP : Series) (i : ℕ) (e r s v iv p : ℚ)
    (h1 : i < sE.length) (h2 : i < sR.length) (h3 : i < sS.length)
    (h4 : i < sV.length) (h5 : i < sI.length) (h6 : i < sP.length)
    (he : sE.getD i PVal.nan = PVal.num e) (hr : sR.getD i PVal.nan = PVal.num r)
    (hs : sS.getD i PVal.nan = PVal.num s) (hv : sV.getD i PVal.nan = PVal.num v)
    (hiv : sI.getD i PVal.nan = PVal.num iv) (hp : sP.getD i PVal.nan = PVal.num p) :
    (sMulC (sAdd (sAdd (sAdd (sAdd (sAdd (sMulC sE (mkRat 3 10)) (sMulC sR (mkRat 2 10)))
        (sMulC sS (mkRat 2 10))) (sMulC sV (mkRat 1 10))) (sMulC sI (mkRat 1 10)))
        (sMulC sP (mkRat 1 10))) 100).getD i PVal.nan
      = PVal.num (100 * (0.3 * e + 0.2 * r + 0.2 * s + 0.1 * v + 0.1 * iv + 0.1 * p)) := by
  rw [getD_sMulC _ _ _ _ (by simp only [length_sMulC, length_sAdd]; omega)]
  rw [getD_sAdd _ _ _ _ (by simp only [length_sMulC, length_sAdd]; omega)
    (by simp only [length_sMulC, length_sAdd]; omega)]
  rw [getD_sAdd _ _ _ _ (by simp only [length_sMulC, length_sAdd]; omega)
    (by simp only [length_sMulC, length_sAdd]; omega)]
  rw [getD_sAdd _ _ _ _ (by simp only [length_sMulC, length_sAdd]; omega)
    (by simp only [length_sMulC, length_sAdd]; omega)]
  rw [getD_sAdd _ _ _ _ (by simp only [length_sMulC, length_sAdd]; omega)
    (by simp only [length_sMulC, length_sAdd]; omega)]
  rw [getD_sAdd _ _ _ _ (by simp only [length_sMulC, length_sAdd]; omega)
    (by simp only [length_sMulC, length_sAdd]; omega)]
  rw [getD_sMulC _ _ _ _ h1, getD_sMulC _ _ _ _ h2, getD_sMulC _ _ _ _ h3,
    getD_sMulC _ _ _ _ h4, getD_sMulC _ _ _ _ h5, getD_sMulC _ _ _ _ h6]
  rw [he, hr, hs, hv, hiv, hp]
  simp only [mul_num_num, add_num_num]
  congr 1
  simp only [mkRat_3_10, mkRat_2_10, mkRat_1_10]
  ring

theorem zipWith_map_num (f : PVal → PVal → PVal) (g : ℚ → ℚ → ℚ)
    (hfg : ∀ a b, f (PVal.num a) (PVal.num b) = PVal.num (g a b)) :
    ∀ (xs ys : List ℚ),
      List.zipWith f (xs.map PVal.num) (ys.map PVal.num)
        = (List.zipWith g xs ys).map PVal.num := by
  intro xs
  induction xs with
  | nil => intro ys; simp
  | cons x xt ih =>
      intro ys
      cases ys with
      | nil => simp
      | cons y yt => simp [hfg, ih]

theorem getD_map_num (qs : List ℚ) (j : ℕ) (hj : j < qs.length) :
    (qs.map PVal.num).getD j PVal.nan = PVal.num (qs.getD j 0) :=
  getD_map _ _ _ hj _ 0

theorem cumsum_map_num_getD (qs : List ℚ) (i : ℕ) (hi : i < qs.length) :
    (cumsum (qs.map PVal.num)).getD i PVal.nan = PVal.num ((qs.take (i + 1)).sum) := by
  rw [getD_cumsum _ _ (by simpa using hi), ← List.map_take, sumP_map_num]

theorem absP_num (a : ℚ) : PVal.absP (PVal.num a) = PVal.num |a| := by
  show PVal.num (qabs a) = PVal.num |a|
  rw [qabs_eq]

theorem sub_nan_right (a : PVal) : PVal.sub a PVal.nan = PVal.nan := by
  cases a <;> rfl

theorem maxSkipNa_nan_right (a : PVal) : maxSkipNa a PVal.nan = a := by
  cases a <;> rfl

theorem maxSkipNa_num (a b : ℚ) :
    maxSkipNa (PVal.num a) (PVal.num b) = PVal.num (max a b) := by
  simp only [maxSkipNa, PVal.maxP, PVal.leb, max_def]
  by_cases h : a ≤ b <;> simp [h]

theorem getD_shiftS_zero (x : PVal) (rest : Series) (d : PVal) :
    (shiftS (x :: rest)).getD 0 d = PVal.nan := rfl

theorem getD_shiftS_succ (xs : Series) (j : ℕ) (hj : j + 1 < xs.length) (d : PVal) :
    (shiftS xs).getD (j + 1) d = xs.getD j d := by
  cases xs with
  | nil => simp at hj
  | cons x rest =>
      show (x :: rest).dropLast.getD j d = (x :: rest).getD j d
      have hlen : j < (x :: rest).dropLast.length := by
        simp at hj ⊢
        omega
      rw [List.getD_eq_getElem _ _ hlen, List.getElem_dropLast,
        List.getD_eq_getElem _ _ (by simp at hj hlen ⊢; omega)]

/-- Modelled from the spec's words for comparison in C5: the per-bar true
range, `max(high-low, |high - prev_close|, |low - prev_close|)`, with the
first bar (no previous close) contributing `high - low` only. -/
def specTrueRange (h l c : List ℚ) : ℕ → ℚ
  | 0 => h.getD 0 0 - l.getD 0 0
  | j + 1 => max (h.getD (j + 1) 0 - l.getD (j + 1) 0)
      (max |h.getD (j + 1) 0 - c.getD j 0| |l.getD (j + 1) 0 - c.getD j 0|)

theorem trueRange_getD (h l c : List ℚ) (n : ℕ)
    (hh : h.length = n) (hl : l.length = n) (hc : c.length = n)
    (j : ℕ) (hj : j < n) :
    (trueRange (h.map PVal.num) (l.map PVal.num) (c.map PVal.num)).getD j PVal.nan
      = PVal.num (specTrueRange h l c j) := by
  rw [trueRange,
    getD_zipWith3 _ _ _ _ j (by simp; omega) (by simp; omega) (by simp; omega) PVal.nan]
  rw [getD_sSub _ _ _ _ (by simp; omega) (by simp; omega)]
  rw [getD_sAbs _ _ _ (by simp; omega), getD_sAbs _ _ _ (by simp; omega)]
  rw [getD_sSub _ _ _ _ (by simp; omega) (by simp; omega)]
  rw [getD_sSub _ _ _ _ (by simp; omega) (by simp; omega)]
  rw [getD_map_num h j (by omega), getD_map_num l j (by omega)]
  cases j with
  | zero =>
      have hcne : c.map PVal.num ≠ [] := by
        intro hcon
        have hlen0 : c.length = 0 := by simpa using congrArg List.length hcon
        omega
      obtain ⟨x, rest, hx⟩ := List.exists_cons_of_ne_nil hcne
      rw [hx, getD_shiftS_zero, sub_nan_right, sub_nan_right]
      show maxSkipNa (maxSkipNa _ PVal.nan) PVal.nan = _
      rw [maxSkipNa_nan_right, maxSkipNa_nan_right, sub_num_num, specTrueRange]
  | succ k =>
      rw [getD_shiftS_succ _ _ (by simp; omega), getD_map_num c k (by omega)]
      rw [sub_num_num, sub_num_num, sub_num_num, absP_num, absP_num]
      rw [maxSkipNa_num, maxSkipNa_num, specTrueRange]
      congr 1
      rw [max_assoc]

theorem window_eq_map_range (ts : Series) (g : ℕ → ℚ) (n w i : ℕ) (hts : ts.length = n)
    (hpt : ∀ j, j < n → ts.getD j PVal.nan = PVal.num (g j))
    (hwi : w ≤ i + 1) (hi : i < n) :
    window w i ts = (((List.range n).drop (i + 1 - w)).take w).map (fun j => PVal.num (g j)) := by
  apply List.ext_getElem
  · simp [window]
    omega
  · intro k h1 h2
    have hk : k < w := by
      simp [window] at h1
      omega
    have hidx : i + 1 - w + k < n := by
      simp [window] at h1
      omega
    rw [show ((((List.range n).drop (i + 1 - w)).take w).map
        (fun j => PVal.num (g j)))[k] = PVal.num (g (i + 1 - w + k)) by
      simp [List.getElem_take, List.getElem_drop]]
    rw [show (window w i ts)[k] = ts.getD (i + 1 - w + k) PVal.nan by
      rw [List.getD_eq_getElem _ _ (by omega)]
      simp [window, List.getElem_take, List.getElem_drop]]
    exact hpt _ hidx

theorem sumP_window_eq (ts : Series) (g : ℕ → ℚ) (n w i : ℕ) (hts : ts.length = n)
    (hpt : ∀ j, j < n → ts.getD j PVal.nan = PVal.num (g j))
    (hwi : w ≤ i + 1) (hi : i < n) :
    sumP (window w i ts)
      = PVal.num (((((List.range n).drop (i + 1 - w)).take w).map g).sum) := by
  rw [window_eq_map_range ts g n w i hts hpt hwi hi]
  rw [show (((List.range n).drop (i + 1 - w)).take w).map (fun j => PVal.num (g j))
      = ((((List.range n).drop (i + 1 - w)).take w).map g).map PVal.num by
    rw [List.map_map]; rfl]
  exact sumP_map_num _

/-- Modelled from the spec's words (glossary: "Percentile rank: fraction of
series values ≤ the current value, scaled to 0-100"), for comparison with the
implementation's pandas average-rank percentile in C2. -/
def specPercentileRank (xs : Series) (v : PVal) : ℚ :=
  100 * ((xs.filter (fun w => PVal.leb w v)).length : ℚ)
    / ((xs.filter notNan).length : ℚ)

theorem num_beq_nan (q : ℚ) : (PVal.num q == PVal.nan) = false := rfl

theorem getD_rankPct (xs : Series) (i : ℕ) (hi : i < xs.length) (q : ℚ)
    (hq : xs.getD i PVal.nan = PVal.num q) :
    (rankPct xs).getD i PVal.nan
      = PVal.num ((((xs.filter (fun w => PVal.ltb w (PVal.num q))).length : ℚ)
          + (((xs.filter (fun w => PVal.eqb w (PVal.num q))).length : ℚ) + 1) / 2)
          / ((xs.filter notNan).length : ℚ)) := by
  rw [rankPct, getD_map _ _ _ hi _ PVal.nan, hq, if_neg (by simp [num_beq_nan])]
  congr 1
  rw [qdiv_eq, qadd_eq, qdiv_eq]
  push_cast
  ring

theorem leb_eq_ltb_or_eqb (a b : PVal) :
    PVal.leb a b = (PVal.ltb a b || PVal.eqb a b) := by
  cases a <;> cases b <;> simp [PVal.leb, PVal.ltb, PVal.eqb, le_iff_lt_or_eq]

theorem ltb_eqb_disjoint (w v : PVal) :
    ¬(PVal.ltb w v = true ∧ PVal.eqb w v = true) := by
  cases w <;> cases v <;> simp [PVal.ltb, PVal.eqb]
  intro h1 h2
  rw [h2] at h1
  exact lt_irrefl _ h1

theorem length_filter_or {α : Type} (p q : α → Bool) (l : List α)
    (hd : ∀ a ∈ l, ¬(p a = true ∧ q a = true)) :
    (l.filter (fun a => p a || q a)).length
      = (l.filter p).length + (l.filter q).length := by
  induction l with
  | nil => rfl
  | cons x t ih =>
      have hx := hd x (List.mem_cons_self x t)
      have ht : ∀ a ∈ t, ¬(p a = true ∧ q a = true) :=
        fun a ha => hd a (List.mem_cons_of_mem x ha)
      by_cases hp : p x = true
      · have hq : q x = false := by
          cases hqx : q x with
          | false => rfl
          | true => exact absurd ⟨hp, hqx⟩ hx
        simp [List.filter_cons, hp, hq, ih ht]
        omega
      · have hp' : p x = false := Bool.eq_false_iff.mpr hp
        by_cases hq : q x = true
        · simp [List.filter_cons, hp', hq, ih ht]
          omega
        · have hq' : q x = false := Bool.eq_false_iff.mpr hq
          simp [List.filter_cons, hp', hq', ih ht]

/-- Every Timing_Score cell is a finite rational (shared by several claims). -/
theorem timing_cell_num (df : Df) (x : PVal)
    (hx : x ∈ getCol (calculate_timing_score df) "Timing_Score") :
    ∃ q : ℚ, x = PVal.num q := by
  rw [ts_Timing_Score] at hx
  obtain ⟨u, hu, rfl⟩ := List.mem_map.mp hx
  obtain ⟨u5, m6, hu5, hm6, rfl⟩ := exists_of_mem_sAdd hu
  obtain ⟨u4, m5, hu4, hm5, rfl⟩ := exists_of_mem_sAdd hu5
  obtain ⟨u3, m4, hu3, hm4, rfl⟩ := exists_of_mem_sAdd hu4
  obtain ⟨u2, m3, hu2, hm3, rfl⟩ := exists_of_mem_sAdd hu3
  obtain ⟨m1, m2, hm1, hm2, rfl⟩ := exists_of_mem_sAdd hu2
  obtain ⟨w1, hw1, rfl⟩ := List.mem_map.mp hm1
  obtain ⟨w2, hw2, rfl⟩ := List.mem_map.mp hm2
  obtain ⟨w3, hw3, rfl⟩ := List.mem_map.mp hm3
  obtain ⟨w4, hw4, rfl⟩ := List.mem_map.mp hm4
  obtain ⟨w5, hw5, rfl⟩ := List.mem_map.mp hm5
  obtain ⟨w6, hw6, rfl⟩ := List.mem_map.mp hm6
  rw [ts_EMA_Signal] at hw1
  rw [ts_RSI_Signal] at hw2
  rw [ts_Stoch_Signal] at hw3
  rw [ts_VWAP_Signal] at hw4
  rw [ts_IVP_Signal] at hw5
  rw [ts_PC_Signal] at hw6
  obtain ⟨b1, rfl⟩ := eq_boolToP_of_mem_zipWith3 hw1
  obtain ⟨b2, rfl⟩ := eq_boolToP_of_mem_map hw2
  obtain ⟨b3, rfl⟩ := eq_boolToP_of_mem_zipWith hw3
  obtain ⟨b4, rfl⟩ := eq_boolToP_of_mem_zipWith hw4
  obtain ⟨b5, rfl⟩ := eq_boolToP_of_mem_map hw5
  obtain ⟨b6, rfl⟩ := eq_boolToP_of_mem_map hw6
  simp only [boolToP_eq, mul_num_num, add_num_num]
  exact ⟨_, rfl⟩

theorem timing_filter_notNan (df : Df) :
    ((getCol (calculate_timing_score df) "Timing_Score").filter notNan)
      = getCol (calculate_timing_score df) "Timing_Score" :=
  List.filter_eq_self.mpr (fun a ha => by
    obtain ⟨q, rfl⟩ := timing_cell_num df a ha
    rfl)

/-!  ### Explicit IEEE-754 binary64 rounding model

The embedding above computes with exact rationals, which is faithful for
comparisons and for the special-value (NaN/inf) behaviour but idealizes away
the per-operation rounding of NumPy/pandas float64 arithmetic.  For the one
place where that rounding is observable in a claim — the Timing_Score
expression of source lines 42-44 — the following model rounds every
intermediate result to the nearest binary64 value (ties to even), exactly as
the program's float64 evaluation does.  Overflow and subnormals are not
modelled; every quantity reached here lies well inside [2^-64, 2^64]. -/

/-- 2^k as an exact rational, in a form the kernel evaluates. -/
def pow2 (k : ℤ) : ℚ :=
  if 0 ≤ k then ((2 ^ k.toNat : ℕ) : ℚ) else mkRat 1 (2 ^ (-k).toNat)

/-- The largest k in [-64, 64] with 2^k ≤ x (for 0 < x in that range):
the binade of x, i.e. the exponent of its leading binary digit. -/
def binade (x : ℚ) : ℤ :=
  (List.range 129).foldl (fun acc i =>
    if pow2 ((i : ℤ) - 64) ≤ x then (i : ℤ) - 64 else acc) (-64)

/-- Round a positive rational to 53 significant binary digits, nearest,
ties to even: scale into [2^52, 2^53), split off the fractional part, and
round it with the even-mantissa tie rule. -/
def froundPos (x : ℚ) : ℚ :=
  let k := binade x
  let scale := pow2 (52 - k)
  let y := qmul x scale
  let m := y.floor
  let r := qsub y (m : ℚ)
  let m2 := if r < mkRat 1 2 then m
    else if mkRat 1 2 < r then m + 1
    else if m % 2 = 0 then m else m + 1
  qdiv (m2 : ℚ) scale

/-- IEEE-754 binary64 rounding of a rational (round to nearest, ties to
even; overflow and subnormals out of scope for the magnitudes used here). -/
def fround (x : ℚ) : ℚ :=
  if x = 0 then 0 else if x < 0 then -froundPos (-x) else froundPos x

/-- The IEEE-754 binary64 evaluation of the source line 42-44 score
expression at one bar: each decimal literal is first rounded to its float64
value, and every product and left-associated sum is rounded after the exact
operation, exactly as NumPy evaluates
`(e*0.3 + r*0.2 + s*0.2 + v*0.1 + iv*0.1 + p*0.1) * 100` in float64. -/
def f64score (e r s v iv p : ℚ) : ℚ :=
  let c3 := fround (mkRat 3 10)
  let c2 := fround (mkRat 2 10)
  let c1 := fround (mkRat 1 10)
  let t1 := fround (qmul e c3)
  let t2 := fround (qmul r c2)
  let t3 := fround (qmul s c2)
  let t4 := fround (qmul v c1)
  let t5 := fround (qmul iv c1)
  let t6 := fround (qmul p c1)
  fround (qmul (fround (qadd (fround (qadd (fround (qadd (fround (qadd
    (fround (qadd t1 t2)) t3)) t4)) t5)) t6)) 100)

/-!  ### Claim theorems  -/

/-- C3: the trade-signal classification of a (numeric) Percentile value is the
stated three-way threshold function, with the 80 and 50 boundaries inclusive in
the higher class, and in particular 80.0 classifies as "Buy Call", 79.9 as
"Hold" and 49.9 as "Avoid". -/
theorem C3_trade_signal_classification (q : ℚ) :
    (80 ≤ q → tradeSignal (PVal.num q) = "Buy Call")
    ∧ (50 ≤ q → q < 80 → tradeSignal (PVal.num q) = "Hold")
    ∧ (q < 50 → tradeSignal (PVal.num q) = "Avoid")
    ∧ tradeSignal (PVal.num 80) = "Buy Call"
    ∧ tradeSignal (PVal.num (799 / 10)) = "Hold"
    ∧ tradeSignal (PVal.num (499 / 10)) = "Avoid" := by
  refine ⟨?_, ?_, ?_, by decide, by norm_num [tradeSignal, PVal.geb, PVal.leb],
    by norm_num [tradeSignal, PVal.geb, PVal.leb]⟩
  · intro h
    simp [tradeSignal, PVal.geb, PVal.leb, h]
  · intro h1 h2
    have h80 : ¬(80 ≤ q) := not_le.mpr h2
    simp [tradeSignal, PVal.geb, PVal.leb, h80, h1]
  · intro h
    have h80 : ¬(80 ≤ q) := not_le.mpr (lt_trans h (by norm_num))
    have h50 : ¬(50 ≤ q) := not_le.mpr h
    simp [tradeSignal, PVal.geb, PVal.leb, h80, h50]

/-- Witness for C3 at the concrete percentile 85. -/
theorem C3_witness : tradeSignal (PVal.num 85) = "Buy Call" :=
  (C3_trade_signal_classification 85).1 (by norm_num)

/-- C8: the indicator-and-scoring pipeline is a pure function of its input
table, so recomputing it on identical inputs yields identical output tables. -/
theorem C8_pipeline_deterministic (df1 df2 : Df) (h : df1 = df2) :
    calculate_timing_score (calculate_indicators df1)
      = calculate_timing_score (calculate_indicators df2) := by
  rw [h]

/-- Witness for C8 on a concrete two-bar table. -/
theorem C8_witness :
    calculate_timing_score (calculate_indicators (mkDf [0, 1] [1, 1] [1, 1] [1, 1] [1, 1] [1, 1]))
      = calculate_timing_score
          (calculate_indicators (mkDf [0, 1] [1, 1] [1, 1] [1, 1] [1, 1] [1, 1])) :=
  C8_pipeline_deterministic _ _ rfl

/-- C10: the pipeline only adds derived columns: the five raw OHLCV columns
and the date index of the table come through both functions unchanged. -/
theorem C10_frame_effect (df : Df) :
    getCol (calculate_timing_score (calculate_indicators df)) "Open" = getCol df "Open"
    ∧ getCol (calculate_timing_score (calculate_indicators df)) "High" = getCol df "High"
    ∧ getCol (calculate_timing_score (calculate_indicators df)) "Low" = getCol df "Low"
    ∧ getCol (calculate_timing_score (calculate_indicators df)) "Close" = getCol df "Close"
    ∧ getCol (calculate_timing_score (calculate_indicators df)) "Volume" = getCol df "Volume"
    ∧ (calculate_timing_score (calculate_indicators df)).index = df.index := by
  refine ⟨?_, ?_, ?_, ?_, ?_, ?_⟩ <;>
    simp [calculate_indicators, calculate_timing_score, getCol_setCol, index_setCol]

set_option maxHeartbeats 1000000 in
/-- C1 (amended): on every bar inside the score series, over exact rational
arithmetic Timing_Score is 100 times the weighted sum of the six signal
values with weights 0.3, 0.2, 0.2, 0.1, 0.1, 0.1; under the program's
IEEE-754 binary64 evaluation of the line 42-44 expression an all-signals-0
bar scores exactly 0.0, but an all-signals-1 bar scores 100 - 2^-46
(displayed 99.99999999999999), not exactly 100.0. -/
theorem C1_timing_score_weighted_sum :
    (∀ (df : Df) (i : ℕ) (e r s v iv p : ℚ),
      i < (getCol (calculate_timing_score df) "Timing_Score").length →
      (getCol (calculate_timing_score df) "EMA_Signal").getD i PVal.nan = PVal.num e →
      (getCol (calculate_timing_score df) "RSI_Signal").getD i PVal.nan = PVal.num r →
      (getCol (calculate_timing_score df) "Stoch_Signal").getD i PVal.nan = PVal.num s →
      (getCol (calculate_timing_score df) "VWAP_Signal").getD i PVal.nan = PVal.num v →
      (getCol (calculate_timing_score df) "IVP_Signal").getD i PVal.nan = PVal.num iv →
      (getCol (calculate_timing_score df) "PC_Signal").getD i PVal.nan = PVal.num p →
      (getCol (calculate_timing_score df) "Timing_Score").getD i PVal.nan
        = PVal.num (100 * (0.3 * e + 0.2 * r + 0.2 * s + 0.1 * v + 0.1 * iv + 0.1 * p)))
    ∧ f64score 0 0 0 0 0 0 = 0
    ∧ f64score 1 1 1 1 1 1 = 100 - 1 / 2 ^ 46 := by
  refine ⟨?_, by decide, ?_⟩
  · intro df i e r s v iv p hi he hr hs hv hiv hp
    rw [ts_Timing_Score] at hi ⊢
    simp only [length_sMulC, length_sAdd] at hi
    exact getD_score_series _ _ _ _ _ _ i e r s v iv p
      (by omega) (by omega) (by omega) (by omega) (by omega) (by omega)
      he hr hs hv hiv hp
  · have h : f64score 1 1 1 1 1 1 = mkRat 7036874417766399 70368744177664 := by decide
    rw [h]
    norm_num [Rat.mkRat_eq_divInt, Rat.divInt_eq_div]

/-- Witness for C1 on a concrete two-bar table whose signals are all 0. -/
theorem C1_witness :
    (getCol (calculate_timing_score (calculate_indicators
        (mkDf [0, 1] [1, 1] [1, 1] [1, 1] [1, 1] [1, 1]))) "Timing_Score").getD 0 PVal.nan
      = PVal.num (100 * (0.3 * 0 + 0.2 * 0 + 0.2 * 0 + 0.1 * 0 + 0.1 * 0 + 0.1 * 0)) :=
  C1_timing_score_weighted_sum.1 _ 0 0 0 0 0 0 0 (by decide) (by decide) (by decide)
    (by decide) (by decide) (by decide) (by decide)

set_option maxHeartbeats 1000000 in
/-- Counterexample to C1 as stated: under the program's IEEE-754 binary64
arithmetic (the running sums round to 0.5, 0.7, 0.7999999999999999,
0.8999999999999999, 0.9999999999999999) an all-signals-1 bar scores
7036874417766399 / 2^46 = 100 - 2^-46, displayed 99.99999999999999, which is
not exactly 100.0. -/
theorem C1_counterexample :
    f64score 1 1 1 1 1 1 = mkRat 7036874417766399 70368744177664
    ∧ (mkRat 7036874417766399 70368744177664 : ℚ) = 100 - 1 / 2 ^ 46
    ∧ f64score 1 1 1 1 1 1 ≠ 100 := by
  refine ⟨by decide, by norm_num [Rat.mkRat_eq_divInt, Rat.divInt_eq_div], by decide⟩

/-- C9: every cell of each of the six signal series is exactly 0 or 1, and
every cell of Timing_Score is a finite value in [0, 100] (never NaN), whatever
the underlying indicator cells are. -/
theorem C9_signals_binary_score_bounded (df : Df) :
    (∀ x ∈ getCol (calculate_timing_score df) "EMA_Signal", x = PVal.num 0 ∨ x = PVal.num 1)
    ∧ (∀ x ∈ getCol (calculate_timing_score df) "RSI_Signal", x = PVal.num 0 ∨ x = PVal.num 1)
    ∧ (∀ x ∈ getCol (calculate_timing_score df) "Stoch_Signal", x = PVal.num 0 ∨ x = PVal.num 1)
    ∧ (∀ x ∈ getCol (calculate_timing_score df) "VWAP_Signal", x = PVal.num 0 ∨ x = PVal.num 1)
    ∧ (∀ x ∈ getCol (calculate_timing_score df) "IVP_Signal", x = PVal.num 0 ∨ x = PVal.num 1)
    ∧ (∀ x ∈ getCol (calculate_timing_score df) "PC_Signal", x = PVal.num 0 ∨ x = PVal.num 1)
    ∧ (∀ x ∈ getCol (calculate_timing_score df) "Timing_Score",
        ∃ q : ℚ, x = PVal.num q ∧ 0 ≤ q ∧ q ≤ 100) := by
  refine ⟨?_, ?_, ?_, ?_, ?_, ?_, ?_⟩
  · rw [ts_EMA_Signal]
    intro x hx
    obtain ⟨b, rfl⟩ := eq_boolToP_of_mem_zipWith3 hx
    exact boolToP_or b
  · rw [ts_RSI_Signal]
    intro x hx
    obtain ⟨b, rfl⟩ := eq_boolToP_of_mem_map hx
    exact boolToP_or b
  · rw [ts_Stoch_Signal]
    intro x hx
    obtain ⟨b, rfl⟩ := eq_boolToP_of_mem_zipWith hx
    exact boolToP_or b
  · rw [ts_VWAP_Signal]
    intro x hx
    obtain ⟨b, rfl⟩ := eq_boolToP_of_mem_zipWith hx
    exact boolToP_or b
  · rw [ts_IVP_Signal]
    intro x hx
    obtain ⟨b, rfl⟩ := eq_boolToP_of_mem_map hx
    exact boolToP_or b
  · rw [ts_PC_Signal]
    intro x hx
    obtain ⟨b, rfl⟩ := eq_boolToP_of_mem_map hx
    exact boolToP_or b
  · rw [ts_Timing_Score]
    intro x hx
    obtain ⟨u, hu, rfl⟩ := List.mem_map.mp hx
    obtain ⟨u5, m6, hu5, hm6, rfl⟩ := exists_of_mem_sAdd hu
    obtain ⟨u4, m5, hu4, hm5, rfl⟩ := exists_of_mem_sAdd hu5
    obtain ⟨u3, m4, hu3, hm4, rfl⟩ := exists_of_mem_sAdd hu4
    obtain ⟨u2, m3, hu2, hm3, rfl⟩ := exists_of_mem_sAdd hu3
    obtain ⟨m1, m2, hm1, hm2, rfl⟩ := exists_of_mem_sAdd hu2
    obtain ⟨w1, hw1, rfl⟩ := List.mem_map.mp hm1
    obtain ⟨w2, hw2, rfl⟩ := List.mem_map.mp hm2
    obtain ⟨w3, hw3, rfl⟩ := List.mem_map.mp hm3
    obtain ⟨w4, hw4, rfl⟩ := List.mem_map.mp hm4
    obtain ⟨w5, hw5, rfl⟩ := List.mem_map.mp hm5
    obtain ⟨w6, hw6, rfl⟩ := List.mem_map.mp hm6
    rw [ts_EMA_Signal] at hw1
    rw [ts_RSI_Signal] at hw2
    rw [ts_Stoch_Signal] at hw3
    rw [ts_VWAP_Signal] at hw4
    rw [ts_IVP_Signal] at hw5
    rw [ts_PC_Signal] at hw6
    obtain ⟨b1, rfl⟩ := eq_boolToP_of_mem_zipWith3 hw1
    obtain ⟨b2, rfl⟩ := eq_boolToP_of_mem_map hw2
    obtain ⟨b3, rfl⟩ := eq_boolToP_of_mem_zipWith hw3
    obtain ⟨b4, rfl⟩ := eq_boolToP_of_mem_zipWith hw4
    obtain ⟨b5, rfl⟩ := eq_boolToP_of_mem_map hw5
    obtain ⟨b6, rfl⟩ := eq_boolToP_of_mem_map hw6
    refine ⟨((((((if b1 then (1 : ℚ) else 0) * 0.3 + (if b2 then (1 : ℚ) else 0) * 0.2)
      + (if b3 then (1 : ℚ) else 0) * 0.2) + (if b4 then (1 : ℚ) else 0) * 0.1)
      + (if b5 then (1 : ℚ) else 0) * 0.1) + (if b6 then (1 : ℚ) else 0) * 0.1) * 100,
      ?_, ?_, ?_⟩
    · simp only [boolToP_eq, mul_num_num, add_num_num, mkRat_3_10, mkRat_2_10, mkRat_1_10]
    · obtain ⟨l1, u1⟩ := boolToP_val_bounds b1
      obtain ⟨l2, u2⟩ := boolToP_val_bounds b2
      obtain ⟨l3, u3⟩ := boolToP_val_bounds b3
      obtain ⟨l4, u4⟩ := boolToP_val_bounds b4
      obtain ⟨l5, u5⟩ := boolToP_val_bounds b5
      obtain ⟨l6, u6⟩ := boolToP_val_bounds b6
      nlinarith
    · obtain ⟨l1, u1⟩ := boolToP_val_bounds b1
      obtain ⟨l2, u2⟩ := boolToP_val_bounds b2
      obtain ⟨l3, u3⟩ := boolToP_val_bounds b3
      obtain ⟨l4, u4⟩ := boolToP_val_bounds b4
      obtain ⟨l5, u5⟩ := boolToP_val_bounds b5
      obtain ⟨l6, u6⟩ := boolToP_val_bounds b6
      nlinarith

/-- C4: on a raw OHLCV table, VWAP at bar `i` is the cumulative sum of
close*volume through bar `i` divided by the cumulative sum of volume through
bar `i`, and at the last bar it equals the totals over the entire input. -/
theorem C4_vwap_cumulative (dates : List ℤ) (o h l c v : List ℚ) (n : ℕ)
    (hc : c.length = n) (hv : v.length = n) :
    (∀ i, i < n → (v.take (i + 1)).sum ≠ 0 →
      (getCol (calculate_indicators (mkDf dates o h l c v)) "VWAP").getD i PVal.nan
        = PVal.num (((List.zipWith (fun a b => a * b) c v).take (i + 1)).sum
            / (v.take (i + 1)).sum))
    ∧ (n ≠ 0 → v.sum ≠ 0 →
      (getCol (calculate_indicators (mkDf dates o h l c v)) "VWAP").getD (n - 1) PVal.nan
        = PVal.num ((List.zipWith (fun a b => a * b) c v).sum / v.sum)) := by
  have main : ∀ i, i < n → (v.take (i + 1)).sum ≠ 0 →
      (getCol (calculate_indicators (mkDf dates o h l c v)) "VWAP").getD i PVal.nan
        = PVal.num (((List.zipWith (fun a b => a * b) c v).take (i + 1)).sum
            / (v.take (i + 1)).sum) := by
    intro i hi hne
    rw [ci_VWAP]
    simp only [getCol_mkDf_Close, getCol_mkDf_Volume]
    rw [show sMul (c.map PVal.num) (v.map PVal.num)
        = (List.zipWith (fun a b => a * b) c v).map PVal.num from
      zipWith_map_num PVal.mul (fun a b => a * b) mul_num_num c v]
    rw [getD_sDiv _ _ _ _ (by simp; omega) (by simp; omega)]
    rw [cumsum_map_num_getD _ i (by simp; omega), cumsum_map_num_getD _ i (by omega)]
    rw [div_num_num _ _ hne]
  refine ⟨main, ?_⟩
  intro hn0 hvs
  have htake : v.take (n - 1 + 1) = v := by
    have he : n - 1 + 1 = n := by omega
    rw [he, ← hv, List.take_length]
  have hztake : (List.zipWith (fun a b => a * b) c v).take (n - 1 + 1)
      = List.zipWith (fun a b => a * b) c v := by
    have hlen : (List.zipWith (fun a b => a * b) c v).length = n := by simp; omega
    have he : n - 1 + 1 = n := by omega
    rw [he, ← hlen, List.take_length]
  have hres := main (n - 1) (by omega) (by rw [htake]; exact hvs)
  rw [htake, hztake] at hres
  exact hres

/-- Witness for C4 on a concrete two-bar table. -/
theorem C4_witness :
    (getCol (calculate_indicators (mkDf [0, 1] [1, 1] [1, 1] [1, 1] [2, 4] [1, 1])) "VWAP").getD
        1 PVal.nan
      = PVal.num (((List.zipWith (fun a b => a * b) [2, 4] [1, 1]).take 2).sum
          / (([1, 1] : List ℚ).take 2).sum) :=
  (C4_vwap_cumulative [0, 1] [1, 1] [1, 1] [1, 1] [2, 4] [1, 1] 2 rfl rfl).1 1
    (by norm_num) (by norm_num)

/-- C5: on a raw OHLCV table with enough bars, ATR at bar `i` (for `i ≥ 13`)
is the arithmetic mean of the true ranges of the 14 bars `i-13 .. i`, where
the true range is `max(high-low, |high-prev close|, |low-prev close|)` and the
first bar of the series contributes `high - low` only. -/
theorem C5_atr_trailing_mean (dates : List ℤ) (o h l c v : List ℚ) (n : ℕ)
    (hh : h.length = n) (hl : l.length = n) (hc : c.length = n)
    (i : ℕ) (h13 : 13 ≤ i) (hi : i < n) :
    (getCol (calculate_indicators (mkDf dates o h l c v)) "ATR").getD i PVal.nan
      = PVal.num (((((List.range n).drop (i - 13)).take 14).map (specTrueRange h l c)).sum
          / 14) := by
  rw [ci_ATR]
  simp only [getCol_mkDf_High, getCol_mkDf_Low, getCol_mkDf_Close]
  have hlen : (trueRange (h.map PVal.num) (l.map PVal.num) (c.map PVal.num)).length = n := by
    simp
    omega
  rw [getD_rollingMean 14 _ i (by omega) PVal.nan]
  rw [if_neg (by omega)]
  rw [sumP_window_eq _ (specTrueRange h l c) n 14 i hlen
    (fun j hj => trueRange_getD h l c n hh hl hc j hj) (by omega) (by omega)]
  rw [div_num_num _ _ (by norm_num)]
  have he : i + 1 - 14 = i - 13 := by omega
  rw [he]
  norm_num

/-- Witness for C5 on a concrete 14-bar table at bar 13. -/
theorem C5_witness :
    (getCol (calculate_indicators (mkDf (List.replicate 14 0) (List.replicate 14 1)
        (List.replicate 14 2) (List.replicate 14 1) (List.replicate 14 1)
        (List.replicate 14 1))) "ATR").getD 13 PVal.nan
      = PVal.num (((((List.range 14).drop (13 - 13)).take 14).map
          (specTrueRange (List.replicate 14 2) (List.replicate 14 1)
            (List.replicate 14 1))).sum / 14) :=
  C5_atr_trailing_mean (List.replicate 14 0) (List.replicate 14 1) (List.replicate 14 2)
    (List.replicate 14 1) (List.replicate 14 1) (List.replicate 14 1) 14
    (by simp) (by simp) (by simp) 13 (by norm_num) (by norm_num)

theorem num_ne_nan (q : ℚ) : PVal.num q ≠ PVal.nan := fun h => PVal.noConfusion h

theorem ltb_nan_left (b : PVal) : PVal.ltb PVal.nan b = false := by cases b <;> rfl

theorem ltb_nan_right (b : PVal) : PVal.ltb b PVal.nan = false := by cases b <;> rfl

theorem leb_nan_left (b : PVal) : PVal.leb PVal.nan b = false := by cases b <;> rfl

theorem leb_nan_right (b : PVal) : PVal.leb b PVal.nan = false := by cases b <;> rfl

/-- C6 (amended): the division-by-zero policy the code actually implements.
When the RSI gain and loss means are both zero (0/0) the RSI cell is NaN; when
the loss mean is zero but the gain mean positive, rs is +infinity and the RSI
cell is the finite value 100, not NaN.  A zero Stochastic range (14-bar max
equal to 14-bar min, close at that common value) gives a NaN Stoch_K cell.  No
exception is possible (every operation is total), and every signal comparison
on a NaN indicator cell yields signal 0. -/
theorem C6_undefined_policy :
    (∀ (df : Df) (i : ℕ),
       (rsiGain (getCol df "Close")).getD i PVal.nan = PVal.num 0 →
       (rsiLoss (getCol df "Close")).getD i PVal.nan = PVal.num 0 →
       (getCol (calculate_indicators df) "RSI").getD i PVal.nan = PVal.nan)
    ∧ (∀ (df : Df) (i : ℕ) (g : ℚ), 0 < g →
       (rsiGain (getCol df "Close")).getD i PVal.nan = PVal.num g →
       (rsiLoss (getCol df "Close")).getD i PVal.nan = PVal.num 0 →
       (getCol (calculate_indicators df) "RSI").getD i PVal.nan = PVal.num 100)
    ∧ (∀ (df : Df) (i : ℕ) (q : ℚ),
       (rollingMax 14 (getCol df "High")).getD i PVal.nan = PVal.num q →
       (rollingMin 14 (getCol df "Low")).getD i PVal.nan = PVal.num q →
       (getCol df "Close").getD i PVal.nan = PVal.num q →
       (getCol (calculate_indicators df) "Stoch_K").getD i PVal.nan = PVal.nan)
    ∧ (∀ (df : Df) (i : ℕ),
       i < (getCol (calculate_timing_score df) "EMA_Signal").length →
       ((getCol df "EMA9").getD i PVal.nan = PVal.nan
         ∨ (getCol df "EMA21").getD i PVal.nan = PVal.nan
         ∨ (getCol df "SMA50").getD i PVal.nan = PVal.nan) →
       (getCol (calculate_timing_score df) "EMA_Signal").getD i PVal.nan = PVal.num 0)
    ∧ (∀ (df : Df) (i : ℕ),
       i < (getCol (calculate_timing_score df) "RSI_Signal").length →
       (getCol df "RSI").getD i PVal.nan = PVal.nan →
       (getCol (calculate_timing_score df) "RSI_Signal").getD i PVal.nan = PVal.num 0)
    ∧ (∀ (df : Df) (i : ℕ),
       i < (getCol (calculate_timing_score df) "Stoch_Signal").length →
       ((getCol df "Stoch_K").getD i PVal.nan = PVal.nan
         ∨ (getCol df "Stoch_D").getD i PVal.nan = PVal.nan) →
       (getCol (calculate_timing_score df) "Stoch_Signal").getD i PVal.nan = PVal.num 0)
    ∧ (∀ (df : Df) (i : ℕ),
       i < (getCol (calculate_timing_score df) "VWAP_Signal").length →
       ((getCol df "Close").getD i PVal.nan = PVal.nan
         ∨ (getCol df "VWAP").getD i PVal.nan = PVal.nan) →
       (getCol (calculate_timing_score df) "VWAP_Signal").getD i PVal.nan = PVal.num 0)
    ∧ (∀ (df : Df) (i : ℕ),
       i < (getCol (calculate_timing_score df) "IVP_Signal").length →
       (getCol df "ATR_Percentile").getD i PVal.nan = PVal.nan →
       (getCol (calculate_timing_score df) "IVP_Signal").getD i PVal.nan = PVal.num 0)
    ∧ (∀ (df : Df) (i : ℕ),
       i < (getCol (calculate_timing_score df) "PC_Signal").length →
       (getCol df "Vol_Ratio").getD i PVal.nan = PVal.nan →
       (getCol (calculate_timing_score df) "PC_Signal").getD i PVal.nan = PVal.num 0) := by
  refine ⟨?_, ?_, ?_, ?_, ?_, ?_, ?_, ?_, ?_⟩
  · intro df i hg hl
    have hb : i < (rsiGain (getCol df "Close")).length :=
      lt_length_of_getD_ne _ _ _ (hg ▸ num_ne_nan 0)
    rw [ci_RSI, rsiSeries]
    rw [getD_map _ _ _ (by simp at hb ⊢; omega) _ PVal.nan]
    rw [getD_zipWith _ _ _ i (by simpa using hb) (by simp at hb ⊢; omega)
      PVal.nan PVal.nan PVal.nan]
    rw [hg, hl]
    rfl
  · intro df i g hgpos hg hl
    have hb : i < (rsiGain (getCol df "Close")).length :=
      lt_length_of_getD_ne _ _ _ (hg ▸ num_ne_nan g)
    rw [ci_RSI, rsiSeries]
    rw [getD_map _ _ _ (by simp at hb ⊢; omega) _ PVal.nan]
    rw [getD_zipWith _ _ _ i (by simpa using hb) (by simp at hb ⊢; omega)
      PVal.nan PVal.nan PVal.nan]
    rw [hg, hl]
    rw [show PVal.div (PVal.num g) (PVal.num 0) = PVal.inf by
      simp [PVal.div, hgpos]]
    rw [show PVal.add (PVal.num 1) PVal.inf = PVal.inf from rfl]
    rw [show PVal.div (PVal.num 100) PVal.inf = PVal.num 0 from rfl]
    rw [sub_num_num]
    norm_num
  · intro df i q hmax hmin hclose
    have hb1 : i < (rollingMax 14 (getCol df "High")).length :=
      lt_length_of_getD_ne _ _ _ (hmax ▸ num_ne_nan q)
    have hb2 : i < (rollingMin 14 (getCol df "Low")).length :=
      lt_length_of_getD_ne _ _ _ (hmin ▸ num_ne_nan q)
    have hb3 : i < (getCol df "Close").length :=
      lt_length_of_getD_ne _ _ _ (hclose ▸ num_ne_nan q)
    rw [ci_Stoch_K, stochK]
    rw [getD_sDiv _ _ _ _ (by simp at hb1 hb2 ⊢; omega) (by simp at hb1 hb2 ⊢; omega)]
    rw [getD_cMulS _ _ _ _ (by simp at hb2 ⊢; omega)]
    rw [getD_sSub _ _ _ _ hb3 (by simpa using hb2)]
    rw [getD_sSub _ _ _ _ (by simpa using hb1) (by simpa using hb2)]
    rw [hmax, hmin, hclose]
    rw [sub_num_num, sub_self]
    rw [show PVal.mul (PVal.num 100) (PVal.num 0) = PVal.num 0 by
      rw [mul_num_num]; norm_num]
    rfl
  · intro df i hlen hnan
    rw [ts_EMA_Signal] at hlen ⊢
    simp only [length_zipWith3] at hlen
    rw [getD_zipWith3 _ _ _ _ i (by omega) (by omega) (by omega) PVal.nan]
    rcases hnan with h | h | h <;> rw [h] <;>
      simp [PVal.gtb, ltb_nan_left, ltb_nan_right, boolToP]
  · intro df i hlen hnan
    rw [ts_RSI_Signal] at hlen ⊢
    simp only [List.length_map] at hlen
    rw [getD_map _ _ _ hlen _ PVal.nan, hnan]
    simp [PVal.geb, leb_nan_left, leb_nan_right, boolToP]
  · intro df i hlen hnan
    rw [ts_Stoch_Signal] at hlen ⊢
    simp only [List.length_zipWith] at hlen
    rw [getD_zipWith _ _ _ i (by omega) (by omega) PVal.nan PVal.nan PVal.nan]
    rcases hnan with h | h <;> rw [h] <;>
      simp [PVal.gtb, ltb_nan_left, ltb_nan_right, boolToP]
  · intro df i hlen hnan
    rw [ts_VWAP_Signal] at hlen ⊢
    simp only [List.length_zipWith] at hlen
    rw [getD_zipWith _ _ _ i (by omega) (by omega) PVal.nan PVal.nan PVal.nan]
    rcases hnan with h | h <;> rw [h] <;>
      simp [PVal.gtb, ltb_nan_left, ltb_nan_right, boolToP]
  · intro df i hlen hnan
    rw [ts_IVP_Signal] at hlen ⊢
    simp only [List.length_map] at hlen
    rw [getD_map _ _ _ hlen _ PVal.nan, hnan]
    simp [PVal.geb, leb_nan_left, leb_nan_right, boolToP]
  · intro df i hlen hnan
    rw [ts_PC_Signal] at hlen ⊢
    simp only [List.length_map] at hlen
    rw [getD_map _ _ _ hlen _ PVal.nan, hnan]
    simp [PVal.gtb, ltb_nan_left, ltb_nan_right, boolToP]

/-- Witness for the amended C6: on a seven-bar constant-close table both the
gain and loss means at bar 6 are 0 and RSI is NaN. -/
theorem C6_witness :
    (getCol (calculate_indicators (mkDf [0, 1, 2, 3, 4, 5, 6] [1, 1, 1, 1, 1, 1, 1]
        [1, 1, 1, 1, 1, 1, 1] [1, 1, 1, 1, 1, 1, 1] [1, 1, 1, 1, 1, 1, 1]
        [1, 1, 1, 1, 1, 1, 1])) "RSI").getD 6 PVal.nan = PVal.nan :=
  C6_undefined_policy.1 (mkDf [0, 1, 2, 3, 4, 5, 6] [1, 1, 1, 1, 1, 1, 1]
    [1, 1, 1, 1, 1, 1, 1] [1, 1, 1, 1, 1, 1, 1] [1, 1, 1, 1, 1, 1, 1]
    [1, 1, 1, 1, 1, 1, 1]) 6 (by decide) (by decide)

/-- Counterexample to C6 as stated: on seven strictly increasing closes the
RSI loss mean at bar 6 is exactly 0, yet the RSI cell is the defined finite
value 100, not an undefined/NaN value. -/
theorem C6_counterexample :
    (rsiLoss (getCol (mkDf [0, 1, 2, 3, 4, 5, 6] [1, 2, 3, 4, 5, 6, 7]
        [1, 2, 3, 4, 5, 6, 7] [1, 2, 3, 4, 5, 6, 7] [1, 2, 3, 4, 5, 6, 7]
        [1, 1, 1, 1, 1, 1, 1]) "Close")).getD 6 PVal.nan = PVal.num 0
    ∧ (getCol (calculate_indicators (mkDf [0, 1, 2, 3, 4, 5, 6] [1, 2, 3, 4, 5, 6, 7]
        [1, 2, 3, 4, 5, 6, 7] [1, 2, 3, 4, 5, 6, 7] [1, 2, 3, 4, 5, 6, 7]
        [1, 1, 1, 1, 1, 1, 1])) "RSI").getD 6 PVal.nan = PVal.num 100
    ∧ PVal.num 100 ≠ PVal.nan := by
  refine ⟨by decide, by decide, by decide⟩

/-- C2 (amended): Percentile is 100 times pandas' average-rank fraction of the
whole Timing_Score series: with L the number of cells strictly below the
bar's score, E the number of cells tied with it (itself included) and n the
series length (every Timing_Score cell is non-NaN), Percentile
= 100 * (L + (E+1)/2) / n; analogously, on every bar whose ATR cell is a
number, ATR_Percentile = 100 * (L + (E+1)/2) / m with L and E counted the
same way over the ATR series and m the number of non-NaN ATR cells (the
13 warm-up NaN cells rank NaN and are excluded from the denominator); in
each column, exactly when the bar's value is untied (E = 1) the formula
coincides with the spec's fraction-of-values-less-or-equal formula. -/
theorem C2_percentile_average_rank (df df2 : Df) (ts ats : Series)
    (hts : ts = getCol (calculate_timing_score df) "Timing_Score")
    (hats : ats = getCol (calculate_indicators df2) "ATR")
    (i : ℕ) (hi : i < ts.length) (j : ℕ) (hj : j < ats.length)
    (q : ℚ) (hq : ats.getD j PVal.nan = PVal.num q) :
    ((getCol (calculate_timing_score df) "Percentile").getD i PVal.nan
      = PVal.num (100 * ((((ts.filter (fun w => PVal.ltb w (ts.getD i PVal.nan))).length : ℚ)
          + (((ts.filter (fun w => PVal.eqb w (ts.getD i PVal.nan))).length : ℚ) + 1) / 2)
          / (ts.length : ℚ))))
    ∧ ((ts.filter (fun w => PVal.eqb w (ts.getD i PVal.nan))).length = 1 →
      (getCol (calculate_timing_score df) "Percentile").getD i PVal.nan
        = PVal.num (specPercentileRank ts (ts.getD i PVal.nan)))
    ∧ ((getCol (calculate_indicators df2) "ATR_Percentile").getD j PVal.nan
      = PVal.num (100 * ((((ats.filter (fun w => PVal.ltb w (ats.getD j PVal.nan))).length : ℚ)
          + (((ats.filter (fun w => PVal.eqb w (ats.getD j PVal.nan))).length : ℚ) + 1) / 2)
          / ((ats.filter notNan).length : ℚ))))
    ∧ ((ats.filter (fun w => PVal.eqb w (ats.getD j PVal.nan))).length = 1 →
      (getCol (calculate_indicators df2) "ATR_Percentile").getD j PVal.nan
        = PVal.num (specPercentileRank ats (ats.getD j PVal.nan))) := by
  subst hts
  subst hats
  obtain ⟨qt, hqt⟩ := timing_cell_num df
    ((getCol (calculate_timing_score df) "Timing_Score").getD i PVal.nan) (by
      rw [List.getD_eq_getElem _ _ hi]
      exact List.getElem_mem hi)
  have hmain : (getCol (calculate_timing_score df) "Percentile").getD i PVal.nan
      = PVal.num (100 * (((((getCol (calculate_timing_score df) "Timing_Score").filter
            (fun w => PVal.ltb w ((getCol (calculate_timing_score df)
              "Timing_Score").getD i PVal.nan))).length : ℚ)
          + ((((getCol (calculate_timing_score df) "Timing_Score").filter
            (fun w => PVal.eqb w ((getCol (calculate_timing_score df)
              "Timing_Score").getD i PVal.nan))).length : ℚ) + 1) / 2)
          / ((getCol (calculate_timing_score df) "Timing_Score").length : ℚ))) := by
    rw [hqt, ts_Percentile]
    rw [getD_sMulC _ _ _ _ (by simp; omega)]
    rw [getD_rankPct _ i hi qt hqt]
    rw [timing_filter_notNan]
    rw [mul_num_num]
    congr 1
    ring
  have hatr : (getCol (calculate_indicators df2) "ATR_Percentile").getD j PVal.nan
      = PVal.num (100 * (((((getCol (calculate_indicators df2) "ATR").filter
            (fun w => PVal.ltb w ((getCol (calculate_indicators df2)
              "ATR").getD j PVal.nan))).length : ℚ)
          + ((((getCol (calculate_indicators df2) "ATR").filter
            (fun w => PVal.eqb w ((getCol (calculate_indicators df2)
              "ATR").getD j PVal.nan))).length : ℚ) + 1) / 2)
          / (((getCol (calculate_indicators df2) "ATR").filter notNan).length : ℚ))) := by
    have key : getCol (calculate_indicators df2) "ATR_Percentile"
        = sMulC (rankPct (getCol (calculate_indicators df2) "ATR")) 100 := by
      rw [ci_ATR_Percentile, ci_ATR]
    rw [hq, key]
    rw [getD_sMulC _ _ _ _ (by simp only [length_rankPct]; omega)]
    rw [getD_rankPct _ j hj q hq]
    rw [mul_num_num]
    congr 1
    ring
  refine ⟨hmain, fun hE => ?_, hatr, fun hE2 => ?_⟩
  · rw [hmain]
    have h1 : ((getCol (calculate_timing_score df) "Timing_Score").filter
          (fun w => PVal.leb w ((getCol (calculate_timing_score df)
            "Timing_Score").getD i PVal.nan))).length
        = ((getCol (calculate_timing_score df) "Timing_Score").filter
          (fun w => PVal.ltb w ((getCol (calculate_timing_score df)
            "Timing_Score").getD i PVal.nan))).length
        + ((getCol (calculate_timing_score df) "Timing_Score").filter
          (fun w => PVal.eqb w ((getCol (calculate_timing_score df)
            "Timing_Score").getD i PVal.nan))).length := by
      rw [show (fun w => PVal.leb w ((getCol (calculate_timing_score df)
            "Timing_Score").getD i PVal.nan))
          = (fun w => PVal.ltb w ((getCol (calculate_timing_score df)
            "Timing_Score").getD i PVal.nan)
            || PVal.eqb w ((getCol (calculate_timing_score df)
            "Timing_Score").getD i PVal.nan)) from
        funext (fun w => leb_eq_ltb_or_eqb w _)]
      exact length_filter_or _ _ _ (fun a _ => ltb_eqb_disjoint a _)
    rw [specPercentileRank, timing_filter_notNan, h1, hE]
    congr 1
    push_cast
    ring
  · rw [hatr]
    have h2 : ((getCol (calculate_indicators df2) "ATR").filter
          (fun w => PVal.leb w ((getCol (calculate_indicators df2)
            "ATR").getD j PVal.nan))).length
        = ((getCol (calculate_indicators df2) "ATR").filter
          (fun w => PVal.ltb w ((getCol (calculate_indicators df2)
            "ATR").getD j PVal.nan))).length
        + ((getCol (calculate_indicators df2) "ATR").filter
          (fun w => PVal.eqb w ((getCol (calculate_indicators df2)
            "ATR").getD j PVal.nan))).length := by
      rw [show (fun w => PVal.leb w ((getCol (calculate_indicators df2)
            "ATR").getD j PVal.nan))
          = (fun w => PVal.ltb w ((getCol (calculate_indicators df2)
            "ATR").getD j PVal.nan)
            || PVal.eqb w ((getCol (calculate_indicators df2)
            "ATR").getD j PVal.nan)) from
        funext (fun w => leb_eq_ltb_or_eqb w _)]
      exact length_filter_or _ _ _ (fun a _ => ltb_eqb_disjoint a _)
    rw [specPercentileRank, h2, hE2]
    congr 1
    push_cast
    ring

/-- Counterexample to C2 as stated: on this two-bar table both Timing_Scores
are 0 (a tie), the spec's fraction-of-values-less-or-equal formula gives 100,
but the pipeline's Percentile is 75 (pandas average rank 1.5 of 2). -/
theorem C2_counterexample :
    (getCol (calculate_timing_score (calculate_indicators
        (mkDf [0, 1] [1, 1] [1, 1] [1, 1] [1, 1] [1, 1]))) "Percentile").getD 0 PVal.nan
      = PVal.num 75
    ∧ specPercentileRank
        (getCol (calculate_timing_score (calculate_indicators
          (mkDf [0, 1] [1, 1] [1, 1] [1, 1] [1, 1] [1, 1]))) "Timing_Score")
        ((getCol (calculate_timing_score (calculate_indicators
          (mkDf [0, 1] [1, 1] [1, 1] [1, 1] [1, 1] [1, 1]))) "Timing_Score").getD 0 PVal.nan)
      = 100
    ∧ (75 : ℚ) ≠ 100 := by
  refine ⟨by decide, ?_, by norm_num⟩
  have hts : getCol (calculate_timing_score (calculate_indicators
      (mkDf [0, 1] [1, 1] [1, 1] [1, 1] [1, 1] [1, 1]))) "Timing_Score"
      = [PVal.num 0, PVal.num 0] := by decide
  rw [hts]
  have h1 : ((([PVal.num 0, PVal.num 0] : Series).filter
      (fun w => PVal.leb w (([PVal.num 0, PVal.num 0] : Series).getD 0 PVal.nan))).length)
      = 2 := by decide
  have h2 : (([PVal.num 0, PVal.num 0] : Series).filter notNan).length = 2 := by decide
  rw [specPercentileRank, h1, h2]
  norm_num

/-- Witness for the amended C2, ATR_Percentile half, on a 14-bar constant
table: ATR is NaN on the 13 warm-up bars and 1 on bar 13, which is therefore
untied among the non-NaN cells, so its percentile matches the spec formula
over the non-NaN count. -/
theorem C2_witness :
    (getCol (calculate_indicators (mkDf (List.replicate 14 0) (List.replicate 14 1)
        (List.replicate 14 2) (List.replicate 14 1) (List.replicate 14 1)
        (List.replicate 14 1))) "ATR_Percentile").getD 13 PVal.nan
      = PVal.num (specPercentileRank
          (getCol (calculate_indicators (mkDf (List.replicate 14 0) (List.replicate 14 1)
            (List.replicate 14 2) (List.replicate 14 1) (List.replicate 14 1)
            (List.replicate 14 1))) "ATR")
          ((getCol (calculate_indicators (mkDf (List.replicate 14 0) (List.replicate 14 1)
            (List.replicate 14 2) (List.replicate 14 1) (List.replicate 14 1)
            (List.replicate 14 1))) "ATR").getD 13 PVal.nan)) :=
  (C2_percentile_average_rank (calculate_indicators (mkDf [0, 1] [1, 3] [1, 3] [1, 3]
      [1, 3] [1, 1])) _ _ _ rfl rfl 1 (by decide) 13 (by decide) 1
      (by decide)).2.2.2 (by decide)

theorem div_nan_left (x : PVal) : PVal.div PVal.nan x = PVal.nan := by cases x <;> rfl

theorem div_nan_right (x : PVal) : PVal.div x PVal.nan = PVal.nan := by cases x <;> rfl

theorem mul_nan_right (x : PVal) : PVal.mul x PVal.nan = PVal.nan := by cases x <;> rfl

theorem getD_replicate {α : Type} (n : ℕ) (x : α) (j : ℕ) (hj : j < n) (d : α) :
    (List.replicate n x).getD j d = x := by
  rw [List.getD_eq_getElem _ _ (by simpa using hj)]
  exact List.getElem_replicate _ _

theorem gainRaw_const (n : ℕ) (k : ℚ) (j : ℕ) (hj : j < n) :
    (gainRaw (List.replicate n (PVal.num k))).getD j PVal.nan = PVal.num 0 := by
  rw [gainRaw, getD_map _ _ _ (by simp; omega) _ PVal.nan]
  cases j with
  | zero =>
      cases n with
      | zero => omega
      | succ m =>
          rw [List.replicate_succ, getD_diffS_zero]
          rfl
  | succ m =>
      rw [getD_diffS_succ _ _ (by simp; omega)]
      rw [getD_replicate _ _ _ (by omega), getD_replicate _ _ _ (by omega)]
      rw [sub_num_num, sub_self]
      norm_num [PVal.gtb, PVal.ltb]

theorem lossRaw_const (n : ℕ) (k : ℚ) (j : ℕ) (hj : j < n) :
    (lossRaw (List.replicate n (PVal.num k))).getD j PVal.nan = PVal.num 0 := by
  rw [lossRaw, getD_map _ _ _ (by simp; omega) _ PVal.nan]
  cases j with
  | zero =>
      cases n with
      | zero => omega
      | succ m =>
          rw [List.replicate_succ, getD_diffS_zero]
          norm_num [PVal.ltb, PVal.neg]
  | succ m =>
      rw [getD_diffS_succ _ _ (by simp; omega)]
      rw [getD_replicate _ _ _ (by omega), getD_replicate _ _ _ (by omega)]
      rw [sub_num_num, sub_self]
      norm_num [PVal.ltb, PVal.neg]

theorem rollingMean_const_zero (xs : Series) (n w i : ℕ) (hlen : xs.length = n)
    (hpt : ∀ j, j < n → xs.getD j PVal.nan = PVal.num 0) (hw : 0 < w)
    (hwi : w ≤ i + 1) (hi : i < n) :
    (rollingMean w xs).getD i PVal.nan = PVal.num 0 := by
  rw [getD_rollingMean w xs i (by omega) PVal.nan, if_neg (by omega)]
  rw [sumP_window_eq xs (fun _ => 0) n w i hlen hpt hwi hi]
  rw [show ((((List.range n).drop (i + 1 - w)).take w).map (fun _ => (0 : ℚ))).sum = 0 by
    simp]
  rw [div_num_num _ _ (Nat.cast_ne_zero.mpr (by omega))]
  norm_num

theorem any_replicate_beq_nan (w : ℕ) (k : ℚ) :
    (List.replicate w (PVal.num k)).any (fun v => v == PVal.nan) = false := by
  induction w with
  | zero => rfl
  | succ m ih =>
      rw [List.replicate_succ, List.any_cons]
      simp only [ih, num_beq_nan, Bool.false_or]

theorem foldl_maxP_const (m : ℕ) (k : ℚ) :
    (List.replicate m (PVal.num k)).foldl PVal.maxP (PVal.num k) = PVal.num k := by
  induction m with
  | zero => rfl
  | succ j ih =>
      rw [List.replicate_succ, List.foldl_cons,
        show PVal.maxP (PVal.num k) (PVal.num k) = PVal.num k by simp [PVal.maxP]]
      exact ih

theorem foldl_minP_const (m : ℕ) (k : ℚ) :
    (List.replicate m (PVal.num k)).foldl PVal.minP (PVal.num k) = PVal.num k := by
  induction m with
  | zero => rfl
  | succ j ih =>
      rw [List.replicate_succ, List.foldl_cons,
        show PVal.minP (PVal.num k) (PVal.num k) = PVal.num k by simp [PVal.minP]]
      exact ih

theorem window_replicate (w n : ℕ) (x : PVal) (i : ℕ) (hwi : w ≤ i + 1) (hi : i < n) :
    window w i (List.replicate n x) = List.replicate w x := by
  rw [window, List.drop_replicate, List.take_replicate,
    show min w (n - (i + 1 - w)) = w by omega]

theorem rollingMax_replicate (w n : ℕ) (k : ℚ) (i : ℕ) (hw : 0 < w) (hwi : w ≤ i + 1)
    (hi : i < n) :
    (rollingMax w (List.replicate n (PVal.num k))).getD i PVal.nan = PVal.num k := by
  obtain ⟨m, rfl⟩ : ∃ m, w = m + 1 := ⟨w - 1, by omega⟩
  rw [getD_rollingMax (m + 1) _ i (by simp; omega) PVal.nan, if_neg (by omega)]
  rw [window_replicate (m + 1) n _ i (by omega) hi]
  rw [if_neg (by rw [any_replicate_beq_nan]; simp)]
  rw [List.replicate_succ]
  show (List.replicate m (PVal.num k)).foldl PVal.maxP (PVal.num k) = PVal.num k
  exact foldl_maxP_const m k

theorem rollingMin_replicate (w n : ℕ) (k : ℚ) (i : ℕ) (hw : 0 < w) (hwi : w ≤ i + 1)
    (hi : i < n) :
    (rollingMin w (List.replicate n (PVal.num k))).getD i PVal.nan = PVal.num k := by
  obtain ⟨m, rfl⟩ : ∃ m, w = m + 1 := ⟨w - 1, by omega⟩
  rw [getD_rollingMin (m + 1) _ i (by simp; omega) PVal.nan, if_neg (by omega)]
  rw [window_replicate (m + 1) n _ i (by omega) hi]
  rw [if_neg (by rw [any_replicate_beq_nan]; simp)]
  rw [List.replicate_succ]
  show (List.replicate m (PVal.num k)).foldl PVal.minP (PVal.num k) = PVal.num k
  exact foldl_minP_const m k

theorem stochK_replicate_nan (n : ℕ) (k : ℚ) (i : ℕ) (hi : i < n) :
    (stochK (List.replicate n (PVal.num k)) (List.replicate n (PVal.num k))
      (List.replicate n (PVal.num k))).getD i PVal.nan = PVal.nan := by
  rw [stochK]
  rw [getD_sDiv _ _ _ _ (by simp; omega) (by simp; omega)]
  rw [getD_cMulS _ _ _ _ (by simp; omega)]
  rw [getD_sSub _ _ _ _ (by simp; omega) (by simp; omega)]
  rw [getD_sSub _ _ _ _ (by simp; omega) (by simp; omega)]
  rw [getD_replicate _ _ _ hi]
  by_cases h14 : i + 1 < 14
  · rw [show (rollingMin 14 (List.replicate n (PVal.num k))).getD i PVal.nan = PVal.nan by
      rw [getD_rollingMin 14 _ i (by simp; omega) PVal.nan, if_pos h14]]
    rw [show (rollingMax 14 (List.replicate n (PVal.num k))).getD i PVal.nan = PVal.nan by
      rw [getD_rollingMax 14 _ i (by simp; omega) PVal.nan, if_pos h14]]
    rw [sub_nan_right, sub_nan_right, mul_nan_right, div_nan_left]
  · rw [rollingMin_replicate 14 n k i (by omega) (by omega) hi]
    rw [rollingMax_replicate 14 n k i (by omega) (by omega) hi]
    rw [sub_num_num, sub_self]
    rw [show PVal.mul (PVal.num 100) (PVal.num 0) = PVal.num 0 by
      rw [mul_num_num]; norm_num]
    rfl

/-- C7 (amended): with all closes equal, RSI is NaN at every bar (0/0 once the
window fills, NaN-propagating warm-up before); if in addition every high and
low equals the same constant, Stoch_K and Stoch_D are NaN at every bar past
the 14-bar warm-up (zero range, 0/0). -/
theorem C7_constant_price (dates : List ℤ) (o h l v : List ℚ) (n : ℕ) (k : ℚ) :
    (∀ i, i < n →
      (getCol (calculate_indicators (mkDf dates o h l (List.replicate n k) v)) "RSI").getD i
        PVal.nan = PVal.nan)
    ∧ (h = List.replicate n k → l = List.replicate n k →
      ∀ i, 13 ≤ i → i < n →
        (getCol (calculate_indicators (mkDf dates o h l (List.replicate n k) v))
          "Stoch_K").getD i PVal.nan = PVal.nan
        ∧ (getCol (calculate_indicators (mkDf dates o h l (List.replicate n k) v))
          "Stoch_D").getD i PVal.nan = PVal.nan) := by
  constructor
  · intro i hi
    rw [ci_RSI]
    simp only [getCol_mkDf_Close, List.map_replicate]
    rw [rsiSeries]
    rw [getD_map _ _ _ (by simp; omega) _ PVal.nan]
    rw [getD_zipWith _ _ _ i (by simp; omega) (by simp; omega) PVal.nan PVal.nan PVal.nan]
    by_cases h7 : i + 1 < 7
    · rw [show (rsiGain (List.replicate n (PVal.num k))).getD i PVal.nan = PVal.nan by
        rw [rsiGain, getD_rollingMean 7 _ i (by simp; omega) PVal.nan, if_pos h7]]
      rw [div_nan_left]
      rfl
    · rw [show (rsiGain (List.replicate n (PVal.num k))).getD i PVal.nan = PVal.num 0 from
        rollingMean_const_zero _ n 7 i (by simp) (fun j hj => gainRaw_const n k j hj)
          (by omega) (by omega) hi]
      rw [show (rsiLoss (List.replicate n (PVal.num k))).getD i PVal.nan = PVal.num 0 from
        rollingMean_const_zero _ n 7 i (by simp) (fun j hj => lossRaw_const n k j hj)
          (by omega) (by omega) hi]
      rfl
  · intro hh hl i h13 hi
    subst hh
    subst hl
    have hstK : getCol (calculate_indicators (mkDf dates o (List.replicate n k)
        (List.replicate n k) (List.replicate n k) v)) "Stoch_K"
        = stochK (List.replicate n (PVal.num k)) (List.replicate n (PVal.num k))
            (List.replicate n (PVal.num k)) := by
      rw [ci_Stoch_K]
      simp only [getCol_mkDf_Close, getCol_mkDf_Low, getCol_mkDf_High, List.map_replicate]
    refine ⟨by rw [hstK]; exact stochK_replicate_nan n k i hi, ?_⟩
    rw [ci_Stoch_D]
    simp only [getCol_mkDf_Close, getCol_mkDf_Low, getCol_mkDf_High, List.map_replicate]
    have hKlen : (stochK (List.replicate n (PVal.num k)) (List.replicate n (PVal.num k))
        (List.replicate n (PVal.num k))).length = n := by
      simp [stochK]
    rw [getD_rollingMean 3 _ i (by omega) PVal.nan, if_neg (by omega)]
    have hwl : 0 < (window 3 i (stochK (List.replicate n (PVal.num k))
        (List.replicate n (PVal.num k)) (List.replicate n (PVal.num k)))).length := by
      simp only [window, List.length_take, List.length_drop, hKlen]
      omega
    have hval : (window 3 i (stochK (List.replicate n (PVal.num k))
        (List.replicate n (PVal.num k)) (List.replicate n (PVal.num k)))).getD 0 PVal.nan
        = PVal.nan := by
      rw [List.getD_eq_getElem _ _ hwl]
      simp only [window, List.getElem_take, List.getElem_drop]
      rw [← List.getD_eq_getElem _ PVal.nan (by omega)]
      exact stochK_replicate_nan n k _ (by omega)
    have hmem : PVal.nan ∈ window 3 i (stochK (List.replicate n (PVal.num k))
        (List.replicate n (PVal.num k)) (List.replicate n (PVal.num k))) := by
      rw [← hval, List.getD_eq_getElem _ _ hwl]
      exact List.getElem_mem hwl
    rw [sumP_nan_of_mem _ hmem, div_nan_left]

/-- Witness for the amended C7 on a fully constant 14-bar table at bar 13. -/
theorem C7_witness :
    (getCol (calculate_indicators (mkDf (List.replicate 14 0) (List.replicate 14 1)
        (List.replicate 14 1) (List.replicate 14 1) (List.replicate 14 1)
        (List.replicate 14 1))) "Stoch_K").getD 13 PVal.nan = PVal.nan
    ∧ (getCol (calculate_indicators (mkDf (List.replicate 14 0) (List.replicate 14 1)
        (List.replicate 14 1) (List.replicate 14 1) (List.replicate 14 1)
        (List.replicate 14 1))) "Stoch_D").getD 13 PVal.nan = PVal.nan :=
  (C7_constant_price (List.replicate 14 0) (List.replicate 14 1) (List.replicate 14 1)
    (List.replicate 14 1) (List.replicate 14 1) 14 1).2 rfl rfl 13 (by norm_num)
    (by norm_num)

/-- Counterexample to C7 as stated: a 14-bar table whose closes are all equal
(100 throughout) but whose highs are 101 and lows 99; the Stochastic range is
nonzero, and Stoch_K at bar 13 is the defined value 50, not NaN. -/
theorem C7_counterexample :
    (getCol (calculate_indicators (mkDf (List.replicate 14 0) (List.replicate 14 100)
        (List.replicate 14 101) (List.replicate 14 99) (List.replicate 14 100)
        (List.replicate 14 1000))) "Stoch_K").getD 13 PVal.nan = PVal.num 50
    ∧ PVal.num 50 ≠ PVal.nan := by
  refine ⟨by decide, by decide⟩

/-- Witness for C9 at a concrete cell of a concrete two-bar table. -/
theorem C9_witness :
    PVal.num 0 = PVal.num 0 ∨ PVal.num 0 = PVal.num 1 :=
  (C9_signals_binary_score_bounded
    (calculate_indicators (mkDf [0, 1] [1, 1] [1, 1] [1, 1] [1, 1] [1, 1]))).1
    (PVal.num 0) (by decide)

end SpyQqq
